import Mathlib

/-!
Shallow embedding of the minesweeper Grid engine
(backend/tile.py and backend/grid.py) and verification of its
specification claims.

Python dictionaries keyed by (row, col) are modelled as dense
row-major lists of lists; a dictionary lookup that would raise
KeyError is modelled as an Option-valued lookup returning none.
Tile objects are immutable records here, with in-place mutation
modelled by functional update of the containing grid.
The global random stream of the random module is modelled as a
function from draw index to natural number; randint(0, n-1) at
draw index i is modelled as (stream i) % n, and the two unbounded
loops of the source (mine rejection sampling, the growable
flood-fill worklist) take an explicit fuel argument.
-/

namespace Minesweeper

/-- Embedding of class Tile (backend/tile.py): three booleans, all
defaulting to false. -/
structure Tile where
  mine : Bool := false
  revealed : Bool := false
  flagged : Bool := false
deriving DecidableEq, Repr

def Tile.place_mine (t : Tile) : Tile := { t with mine := true }

def Tile.mark_as_revealed (t : Tile) : Tile := { t with revealed := true }

def Tile.place_flag (t : Tile) : Tile := { t with flagged := true }

def Tile.remove_flag (t : Tile) : Tile := { t with flagged := false }

abbrev Pos := Int × Int

/-- Grid.ROTATIONS from grid.py: the eight relative neighbor offsets. -/
def ROTATIONS : List (Int × Int) :=
  [(-1, -1), (-1, 0), (-1, 1), (0, -1), (0, 1), (1, -1), (1, 0), (1, 1)]

/-- Lookup in a dict keyed by (row, col) that holds exactly the keys
0 <= row < height, 0 <= col < width of a dense row-major matrix:
none models KeyError. -/
def lookup2 (m : List (List α)) (r c : Int) : Option α :=
  if 0 ≤ r ∧ 0 ≤ c then
    match m[r.toNat]? with
    | some row => row[c.toNat]?
    | none => none
  else none

/-- Replace the element at one index of a list, identity when out of range. -/
def modifyAt (f : α → α) : List α → Nat → List α
  | [], _ => []
  | x :: xs, 0 => f x :: xs
  | x :: xs, n + 1 => x :: modifyAt f xs n

/-- In-place mutation of the value stored at key (r, c), identity when
the key is absent. -/
def modify2 (m : List (List α)) (r c : Int) (f : α → α) : List (List α) :=
  if 0 ≤ r ∧ 0 ≤ c then modifyAt (fun row => modifyAt f row c.toNat) m r.toNat
  else m

/-- Embedding of class Grid (backend/grid.py): scalar attributes plus
the two parallel maps _tile_grid and _mine_count_grid. -/
structure Grid where
  grid_height : Nat
  grid_width : Nat
  mine_count : Nat
  seed : Int
  tile_grid : List (List Tile)
  mine_count_grid : List (List Nat)
deriving DecidableEq, Repr

instance : Inhabited Grid :=
  ⟨{ grid_height := 0, grid_width := 0, mine_count := 0, seed := 0,
     tile_grid := [], mine_count_grid := [] }⟩

/-- self._tile_grid[row, col]; none models KeyError. -/
def Grid.getTile? (g : Grid) (r c : Int) : Option Tile :=
  lookup2 g.tile_grid r c

/-- self._mine_count_grid[row, col]; none models KeyError. -/
def Grid.getCount? (g : Grid) (r c : Int) : Option Nat :=
  lookup2 g.mine_count_grid r c

/-- Grid.is_tile_empty: no bomb and no surrounding mines. The tile
lookup happens first and short-circuits on a mine, matching the
evaluation order of the source; none models a propagated KeyError. -/
def Grid.is_tile_empty (g : Grid) (r c : Int) : Option Bool :=
  match g.getTile? r c with
  | none => none
  | some t =>
    if t.mine then some false
    else
      match g.getCount? r c with
      | none => none
      | some n => some (decide (n = 0))

/-- Grid._is_tile_a_indicator: stored count strictly positive. -/
def Grid.is_tile_a_indicator (g : Grid) (r c : Int) : Option Bool :=
  (g.getCount? r c).map fun n => decide (0 < n)

/-- One neighbor probe of rotate_algorithm inside Grid.open_tile: the
state is (tile grid, to_check, to_not_check); a KeyError on either map
lookup skips the probe. -/
def rotateOne (counts : List (List Nat)) (st : List (List Tile) × List Pos × List Pos)
    (loc : Pos) : List (List Tile) × List Pos × List Pos :=
  let (tg, toCheck, toNotCheck) := st
  match lookup2 tg loc.1 loc.2, lookup2 counts loc.1 loc.2 with
  | some t, some n =>
    if (!t.mine && decide (n = 0)) && !t.revealed && !t.flagged then
      if loc ∈ toCheck then (tg, toCheck, toNotCheck)
      else (modify2 tg loc.1 loc.2 Tile.mark_as_revealed, toCheck ++ [loc], toNotCheck)
    else if decide (0 < n) && !t.revealed && !t.flagged then
      if loc ∈ toNotCheck then (tg, toCheck, toNotCheck)
      else (modify2 tg loc.1 loc.2 Tile.mark_as_revealed, toCheck, toNotCheck ++ [loc])
    else (tg, toCheck, toNotCheck)
  | _, _ => (tg, toCheck, toNotCheck)

/-- rotate_algorithm(curr_r, curr_c): probe the eight neighbors in
ROTATIONS order. -/
def rotate_algorithm (counts : List (List Nat)) (curr : Pos)
    (st : List (List Tile) × List Pos × List Pos) :
    List (List Tile) × List Pos × List Pos :=
  ROTATIONS.foldl (fun st d => rotateOne counts st (curr.1 + d.1, curr.2 + d.2)) st

/-- The for-loop over the growable to_check list in Grid.open_tile,
with the Python list-iterator cursor made explicit as index i.
Entries of to_check are pairwise distinct in-range keys, so a fuel of
area + 1 always reaches the cursor-exhausted case. -/
def fillLoop (counts : List (List Nat)) :
    Nat → (List (List Tile) × List Pos × List Pos) → Nat →
    List (List Tile) × List Pos × List Pos
  | 0, st, _ => st
  | fuel + 1, st, i =>
    match st.2.1[i]? with
    | none => st
    | some loc => fillLoop counts fuel (rotate_algorithm counts loc st) (i + 1)

/-- Grid.open_tile: returns the updated grid and the list of opened
tiles; none models the KeyError raised by the initial unguarded
lookup when (row, col) is not a key of the tile grid. -/
def Grid.open_tile (g : Grid) (row col : Int) : Option (Grid × List Pos) :=
  match g.getTile? row col with
  | none => none
  | some t =>
    if t.mine || t.revealed then some (g, [(row, col)])
    else
      let tg1 := modify2 g.tile_grid row col Tile.mark_as_revealed
      let st := fillLoop g.mine_count_grid (g.grid_height * g.grid_width + 1)
        (tg1, [(row, col)], []) 0
      some ({ g with tile_grid := st.1 }, st.2.1 ++ st.2.2)

/-- Grid.check_win: the all(...) over _tile_grid.values(). -/
def Grid.check_win (g : Grid) : Bool :=
  g.tile_grid.all fun row =>
    row.all fun t => (t.flagged && t.mine) || (t.revealed && !t.mine)

/-- self.get_tile(row, col).place_flag(); none models KeyError on the
lookup, which happens before any mutation. -/
def Grid.place_flag (g : Grid) (r c : Int) : Option Grid :=
  (g.getTile? r c).map fun _ =>
    { g with tile_grid := modify2 g.tile_grid r c Tile.place_flag }

/-- self.get_tile(row, col).remove_flag(). -/
def Grid.remove_flag (g : Grid) (r c : Int) : Option Grid :=
  (g.getTile? r c).map fun _ =>
    { g with tile_grid := modify2 g.tile_grid r c Tile.remove_flag }

/-- The distinct messages of the three validation exceptions raised by
Grid.check_valid_grid_arguments. -/
inductive ValidationError where
  | tooSmall
  | notEnoughMines
  | tooManyMines
deriving DecidableEq, Repr

/-- Grid.check_valid_grid_arguments. -/
def check_valid_grid_arguments (grid_height grid_width mine_count : Int) :
    Except ValidationError Unit :=
  if grid_height < 5 ∨ grid_width < 5 then .error .tooSmall
  else if mine_count < 1 then .error .notEnoughMines
  else if mine_count > grid_height * grid_width then .error .tooManyMines
  else .ok ()

/-- Grid._init_grids: every in-range key mapped to a fresh Tile() and
count 0. -/
def init_tile_grid (h w : Nat) : List (List Tile) :=
  List.replicate h (List.replicate w {})

def init_count_grid (h w : Nat) : List (List Nat) :=
  List.replicate h (List.replicate w 0)

/-- Grid._generate_rnd_position: two randint draws from the stream,
returning the position and the next draw index. -/
def generate_rnd_position (h w : Nat) (s : Nat → Nat) (idx : Nat) : Pos × Nat :=
  (((s idx % h : Nat), (s (idx + 1) % w : Nat)), idx + 2)

/-- The inner while-True rejection loop of Grid._place_random_mines:
redraw until the drawn tile has no mine, then place one. none models
exhausted fuel, i.e. a random stream that never leaves the already
mined tiles within fuel attempts. -/
def place_one_mine (h w : Nat) (s : Nat → Nat) :
    Nat → Nat → List (List Tile) → Option (List (List Tile) × Nat)
  | 0, _, _ => none
  | fuel + 1, idx, tg =>
    let (p, idx') := generate_rnd_position h w s idx
    match lookup2 tg p.1 p.2 with
    | none => none
    | some t =>
      if t.mine then place_one_mine h w s fuel idx' tg
      else some (modify2 tg p.1 p.2 Tile.place_mine, idx')

/-- Grid._place_random_mines: the for-loop placing mine_count mines. -/
def place_random_mines (h w : Nat) (s : Nat → Nat) (fuel : Nat) :
    Nat → Nat → List (List Tile) → Option (List (List Tile) × Nat)
  | 0, idx, tg => some (tg, idx)
  | m + 1, idx, tg =>
    match place_one_mine h w s fuel idx tg with
    | none => none
    | some (tg', idx') => place_random_mines h w s fuel m idx' tg'

/-- Grid._find_surrounding_mine_count: fold over the eight ROTATIONS,
KeyError contributing nothing. -/
def find_surrounding_mine_count (tg : List (List Tile)) (row col : Int) : Nat :=
  ROTATIONS.foldl
    (fun count d =>
      match lookup2 tg (row + d.1) (col + d.2) with
      | some t => if t.mine then count + 1 else count
      | none => count)
    0

/-- Grid._generate_indicators: starting from the all-zero count grid,
store the surrounding mine count at every non-mine tile (mine tiles
keep their initial 0). -/
def generate_indicators (h w : Nat) (tg : List (List Tile)) : List (List Nat) :=
  (List.range h).map fun (r : Nat) =>
    (List.range w).map fun (c : Nat) =>
      match lookup2 tg (r : Int) (c : Int) with
      | some t => if t.mine then 0 else find_surrounding_mine_count tg (r : Int) (c : Int)
      | none => 0

/-- Grid._set_up_grid: init, place mines, compute indicators. Returns
the two maps and the next random draw index. -/
def set_up_grid (h w m : Nat) (s : Nat → Nat) (fuel idx : Nat) :
    Option ((List (List Tile) × List (List Nat)) × Nat) :=
  match place_random_mines h w s fuel m idx (init_tile_grid h w) with
  | none => none
  | some (tg, idx') => some ((tg, generate_indicators h w tg), idx')

/-- The ambient randomness of grid.py: stream sa is the sequence of
draws produced by the random module after random.seed(sa) (sa = none
models seeding with None, i.e. from the operating system), and
urandom16 is the value int.from_bytes(urandom(16), big) returned by
Grid.generate_seed. -/
structure RandomEnv where
  stream : Option Int → Nat → Nat
  urandom16 : Int

/-- Grid.generate_seed. -/
def generate_seed (env : RandomEnv) : Int := env.urandom16

/-- Grid.__init__: validate, record the seed (the passed one, else a
fresh urandom one), seed the random module WITH THE PASSED PARAMETER
seed (line 32 of grid.py: random.seed(seed)), then set up the grids.
Except models the validation exception; the inner Option models a
mine-placement rejection loop that exceeds its fuel. -/
def mkGrid (env : RandomEnv) (grid_height grid_width mine_count : Int)
    (seedArg : Option Int) (fuel : Nat) :
    Except ValidationError (Option (Grid × Nat)) :=
  match check_valid_grid_arguments grid_height grid_width mine_count with
  | .error e => .error e
  | .ok _ =>
    let seed := seedArg.getD (generate_seed env)
    let s := env.stream seedArg
    match set_up_grid grid_height.toNat grid_width.toNat mine_count.toNat s fuel 0 with
    | none => .ok none
    | some ((tg, cg), idx) =>
      .ok (some ({ grid_height := grid_height.toNat, grid_width := grid_width.toNat,
                   mine_count := mine_count.toNat, seed := seed,
                   tile_grid := tg, mine_count_grid := cg }, idx))

/-- Grid.restart_grid: discard both maps and rerun _set_up_grid, with
the random stream continuing from its current draw index. -/
def Grid.restart_grid (g : Grid) (s : Nat → Nat) (fuel idx : Nat) :
    Option (Grid × Nat) :=
  match set_up_grid g.grid_height g.grid_width g.mine_count s fuel idx with
  | none => none
  | some ((tg, cg), idx') =>
    some ({ g with tile_grid := tg, mine_count_grid := cg }, idx')

/-! Basic lemmas about the map model. -/

theorem modifyAt_length (f : α → α) (l : List α) (n : Nat) :
    (modifyAt f l n).length = l.length := by
  induction l generalizing n with
  | nil => rfl
  | cons x xs ih =>
    cases n with
    | zero => rfl
    | succ k => simp [modifyAt, ih]

theorem modifyAt_getElem? (f : α → α) (l : List α) (n k : Nat) :
    (modifyAt f l n)[k]? = if k = n then l[k]?.map f else l[k]? := by
  induction l generalizing n k with
  | nil => simp [modifyAt]
  | cons x xs ih =>
    cases n with
    | zero =>
      cases k with
      | zero => simp [modifyAt]
      | succ j => simp [modifyAt]
    | succ m =>
      cases k with
      | zero => simp [modifyAt]
      | succ j => simpa [modifyAt] using ih m j

theorem lookup2_modify2_self (m : List (List α)) (r c : Int) (f : α → α) :
    lookup2 (modify2 m r c f) r c = (lookup2 m r c).map f := by
  unfold lookup2 modify2
  by_cases h : 0 ≤ r ∧ 0 ≤ c
  · rw [if_pos h, if_pos h, if_pos h]
    rw [modifyAt_getElem?, if_pos rfl]
    cases hm : m[r.toNat]? with
    | none => simp
    | some row => simp [modifyAt_getElem?]
  · rw [if_neg h]
    simp only [if_neg h]
    simp

theorem lookup2_modify2_ne (m : List (List α)) (r c : Int) (f : α → α)
    (r' c' : Int) (hne : ¬(r' = r ∧ c' = c)) :
    lookup2 (modify2 m r c f) r' c' = lookup2 m r' c' := by
  unfold lookup2 modify2
  by_cases h : 0 ≤ r ∧ 0 ≤ c
  · rw [if_pos h]
    by_cases h' : 0 ≤ r' ∧ 0 ≤ c'
    · rw [if_pos h', if_pos h']
      rw [modifyAt_getElem?]
      by_cases hr : r'.toNat = r.toNat
      · have hrr : r' = r := by omega
        subst hrr
        rw [if_pos hr]
        cases hm : m[r'.toNat]? with
        | none => simp
        | some row =>
          have hc : ¬(c' = c) := fun hc => hne ⟨rfl, hc⟩
          have hcc : ¬(c'.toNat = c.toNat) := by omega
          simp [modifyAt_getElem?, hcc]
      · rw [if_neg hr]
    · rw [if_neg h', if_neg h']
  · rw [if_neg h]

theorem lookup2_modify2_isSome (m : List (List α)) (r c : Int) (f : α → α)
    (r' c' : Int) :
    (lookup2 (modify2 m r c f) r' c').isSome = (lookup2 m r' c').isSome := by
  by_cases h : r' = r ∧ c' = c
  · obtain ⟨h1, h2⟩ := h
    subst h1; subst h2
    rw [lookup2_modify2_self]
    cases lookup2 m r' c' <;> simp
  · rw [lookup2_modify2_ne _ _ _ _ _ _ h]

/-- Both maps of a grid hold exactly the keys of a dense h-by-w matrix. -/
def Dims (m : List (List α)) (h w : Nat) : Prop :=
  m.length = h ∧ ∀ row ∈ m, row.length = w

instance {m : List (List α)} {h w : Nat} : Decidable (Dims m h w) :=
  inferInstanceAs (Decidable (m.length = h ∧ ∀ row ∈ m, row.length = w))

theorem lookup2_isSome_iff {m : List (List α)} {h w : Nat} (hd : Dims m h w)
    (r c : Int) :
    (lookup2 m r c).isSome ↔ 0 ≤ r ∧ r < (h : Int) ∧ 0 ≤ c ∧ c < (w : Int) := by
  obtain ⟨hlen, hrow⟩ := hd
  unfold lookup2
  by_cases hg : 0 ≤ r ∧ 0 ≤ c
  · rw [if_pos hg]
    cases hm : m[r.toNat]? with
    | none =>
      have hge : m.length ≤ r.toNat := by
        by_contra hlt
        rw [List.getElem?_eq_getElem (by omega)] at hm
        exact Option.noConfusion hm
      simp only [Option.isSome_none, Bool.false_eq_true, false_iff]
      omega
    | some row =>
      have hrn : r.toNat < m.length := by
        by_contra hge
        rw [List.getElem?_eq_none (by omega)] at hm
        exact Option.noConfusion hm
      have hw : row.length = w := hrow row (List.getElem?_mem hm)
      dsimp only
      constructor
      · intro hs
        have hcn : c.toNat < row.length := by
          by_contra hge
          rw [List.getElem?_eq_none (by omega)] at hs
          simp at hs
        omega
      · intro hb
        rw [List.getElem?_eq_getElem (show c.toNat < row.length by omega)]
        rfl
  · rw [if_neg hg]
    simp only [Option.isSome_none, Bool.false_eq_true, false_iff]
    omega

theorem lookup2_eq_none_outside {m : List (List α)} {h w : Nat} (hd : Dims m h w)
    {r c : Int} (hout : ¬(0 ≤ r ∧ r < (h : Int) ∧ 0 ≤ c ∧ c < (w : Int))) :
    lookup2 m r c = none := by
  have := (lookup2_isSome_iff hd r c).not.mpr hout
  cases hm : lookup2 m r c with
  | none => rfl
  | some a => rw [hm] at this; simp at this

theorem dims_modify2 {m : List (List α)} {h w : Nat} (hd : Dims m h w)
    (r c : Int) (f : α → α) : Dims (modify2 m r c f) h w := by
  obtain ⟨hlen, hrow⟩ := hd
  unfold modify2
  by_cases hg : 0 ≤ r ∧ 0 ≤ c
  · rw [if_pos hg]
    refine ⟨by rw [modifyAt_length]; exact hlen, ?_⟩
    intro row hmem
    obtain ⟨n, hn⟩ := List.getElem?_of_mem hmem
    rw [modifyAt_getElem?] at hn
    by_cases hnr : n = r.toNat
    · rw [if_pos hnr] at hn
      cases hm : m[n]? with
      | none => rw [hm] at hn; exact Option.noConfusion hn
      | some row0 =>
        rw [hm] at hn
        simp only [Option.map_some'] at hn
        have hlw : row0.length = w := hrow row0 (List.getElem?_mem hm)
        injection hn with hn'
        rw [← hn', modifyAt_length]
        exact hlw
    · rw [if_neg hnr] at hn
      exact hrow row (List.getElem?_mem hn)
  · rw [if_neg hg]
    exact ⟨hlen, hrow⟩

/-- Holds of the value stored in an Option, vacuously of none. -/
def OptionHolds (P : α → Prop) : Option α → Prop
  | some a => P a
  | none => True

instance {P : α → Prop} [DecidablePred P] (o : Option α) :
    Decidable (OptionHolds P o) :=
  match o with
  | some a => (inferInstance : Decidable (P a))
  | none => .isTrue trivial

/-- A universally quantified per-key property over a dense grid map is
equivalent to its bounded, decidable form. -/
theorem lookup2_forall_iff {m : List (List α)} {h w : Nat} (hd : Dims m h w)
    (P : Int → Int → α → Prop) :
    (∀ r c a, lookup2 m r c = some a → P r c a) ↔
    (∀ rn, rn < h → ∀ cn, cn < w →
      OptionHolds (P ↑rn ↑cn) (lookup2 m ↑rn ↑cn)) := by
  constructor
  · intro hall rn _ cn _
    cases hm : lookup2 m ↑rn ↑cn with
    | none => trivial
    | some a => exact hall _ _ _ hm
  · intro hb r c a hm
    have hs : (lookup2 m r c).isSome := by rw [hm]; rfl
    have hbounds := (lookup2_isSome_iff hd r c).mp hs
    have hr : r = ((r.toNat : Nat) : Int) := by omega
    have hc : c = ((c.toNat : Nat) : Int) := by omega
    have hrn : r.toNat < h := by omega
    have hcn : c.toNat < w := by omega
    have := hb r.toNat hrn c.toNat hcn
    rw [← hr, ← hc] at this
    rw [hm] at this
    exact this

/-! The flood-fill invariant of open_tile. -/

/-- Neighbor relation induced by the eight ROTATIONS offsets. -/
def adjacentPos (p q : Pos) : Prop :=
  ∃ d ∈ ROTATIONS, q = (p.1 + d.1, p.2 + d.2)

instance (p q : Pos) : Decidable (adjacentPos p q) :=
  List.decidableBEx _ ROTATIONS

/-- Everything the flood-fill loop of open_tile preserves, stated
relative to the pre-call grid g and the clicked position. The state
st is (current tile grid, to_check, to_not_check). -/
structure FloodInv (g : Grid) (clicked : Pos)
    (st : List (List Tile) × List Pos × List Pos) : Prop where
  clicked_mem : clicked ∈ st.2.1
  dom : ∀ r c, (lookup2 st.1 r c).isSome = (lookup2 g.tile_grid r c).isSome
  skeleton : ∀ r c t0 t, lookup2 g.tile_grid r c = some t0 →
    lookup2 st.1 r c = some t → t.mine = t0.mine ∧ t.flagged = t0.flagged
  mono : ∀ r c t0 t, lookup2 g.tile_grid r c = some t0 →
    lookup2 st.1 r c = some t → t0.revealed = true → t.revealed = true
  guard : ∀ r c t0 t, lookup2 g.tile_grid r c = some t0 →
    lookup2 st.1 r c = some t → t.revealed = true →
    t0.revealed = true ∨ (r, c) = clicked ∨
      (t0.flagged = false ∧
        ((t0.mine = false ∧ g.getCount? r c = some 0) ∨
          (∃ n, g.getCount? r c = some n ∧ 0 < n)))
  tc_empty : ∀ p ∈ st.2.1, p = clicked ∨
    (∃ t0, lookup2 g.tile_grid p.1 p.2 = some t0 ∧ t0.mine = false ∧
      g.getCount? p.1 p.2 = some 0)
  tc_revealed : ∀ p ∈ st.2.1, ∃ t, lookup2 st.1 p.1 p.2 = some t ∧ t.revealed = true
  src : ∀ r c t0 t, lookup2 g.tile_grid r c = some t0 →
    lookup2 st.1 r c = some t → t0.revealed = false → t.revealed = true →
    (r, c) = clicked ∨ ∃ p ∈ st.2.1, adjacentPos p (r, c)

theorem lookup2_reveal (tg : List (List Tile)) (r c r' c' : Int) (t : Tile)
    (h : lookup2 tg r' c' = some t) :
    ∃ t', lookup2 (modify2 tg r c Tile.mark_as_revealed) r' c' = some t' ∧
      t'.mine = t.mine ∧ t'.flagged = t.flagged ∧
      (t.revealed = true → t'.revealed = true) := by
  by_cases he : r' = r ∧ c' = c
  · obtain ⟨h1, h2⟩ := he
    subst h1; subst h2
    rw [lookup2_modify2_self, h]
    exact ⟨t.mark_as_revealed, rfl, rfl, rfl, fun _ => rfl⟩
  · rw [lookup2_modify2_ne _ _ _ _ _ _ he]
    exact ⟨t, h, rfl, rfl, id⟩

theorem lookup2_reveal_rev (tg : List (List Tile)) (r c r' c' : Int) (t' : Tile)
    (h : lookup2 (modify2 tg r c Tile.mark_as_revealed) r' c' = some t') :
    ∃ t, lookup2 tg r' c' = some t ∧ t'.mine = t.mine ∧ t'.flagged = t.flagged ∧
      (t'.revealed = true → t.revealed = true ∨ (r' = r ∧ c' = c)) := by
  by_cases he : r' = r ∧ c' = c
  · obtain ⟨h1, h2⟩ := he
    subst h1; subst h2
    rw [lookup2_modify2_self] at h
    cases hm : lookup2 tg r' c' with
    | none => rw [hm] at h; exact Option.noConfusion h
    | some t =>
      rw [hm] at h
      simp only [Option.map_some'] at h
      injection h with h
      subst h
      exact ⟨t, rfl, rfl, rfl, fun _ => Or.inr ⟨rfl, rfl⟩⟩
  · rw [lookup2_modify2_ne _ _ _ _ _ _ he] at h
    exact ⟨t', h, rfl, rfl, fun hr => Or.inl hr⟩

/-- Exhaustive description of what one neighbor probe does. -/
theorem rotateOne_cases (counts : List (List Nat))
    (tg : List (List Tile)) (tc tnc : List Pos) (loc : Pos) :
    rotateOne counts (tg, tc, tnc) loc = (tg, tc, tnc) ∨
    (∃ t n, lookup2 tg loc.1 loc.2 = some t ∧
      lookup2 counts loc.1 loc.2 = some n ∧
      t.revealed = false ∧ t.flagged = false ∧
      ((t.mine = false ∧ n = 0 ∧ loc ∉ tc ∧
        rotateOne counts (tg, tc, tnc) loc =
          (modify2 tg loc.1 loc.2 Tile.mark_as_revealed, tc ++ [loc], tnc)) ∨
       (0 < n ∧ loc ∉ tnc ∧
        rotateOne counts (tg, tc, tnc) loc =
          (modify2 tg loc.1 loc.2 Tile.mark_as_revealed, tc, tnc ++ [loc])))) := by
  unfold rotateOne
  dsimp only
  cases h1 : lookup2 tg loc.1 loc.2 with
  | none => left; rfl
  | some t =>
    cases h2 : lookup2 counts loc.1 loc.2 with
    | none => left; rfl
    | some n =>
      dsimp only
      by_cases hb1 : ((!t.mine && decide (n = 0)) && !t.revealed && !t.flagged) = true
      · rw [if_pos hb1]
        simp only [Bool.and_eq_true, Bool.not_eq_true', decide_eq_true_eq] at hb1
        obtain ⟨⟨⟨hm, hn⟩, hr⟩, hf⟩ := hb1
        by_cases hmem : loc ∈ tc
        · rw [if_pos hmem]; left; rfl
        · rw [if_neg hmem]
          right
          exact ⟨t, n, rfl, rfl, hr, hf, Or.inl ⟨hm, hn, hmem, rfl⟩⟩
      · rw [if_neg hb1]
        by_cases hb2 : (decide (0 < n) && !t.revealed && !t.flagged) = true
        · rw [if_pos hb2]
          simp only [Bool.and_eq_true, Bool.not_eq_true', decide_eq_true_eq] at hb2
          obtain ⟨⟨hn, hr⟩, hf⟩ := hb2
          by_cases hmem : loc ∈ tnc
          · rw [if_pos hmem]; left; rfl
          · rw [if_neg hmem]
            right
            exact ⟨t, n, rfl, rfl, hr, hf, Or.inr ⟨hn, hmem, rfl⟩⟩
        · rw [if_neg hb2]; left; rfl

theorem rotateOne_tc_sub (counts : List (List Nat))
    (tg : List (List Tile)) (tc tnc : List Pos) (loc : Pos) :
    tc ⊆ (rotateOne counts (tg, tc, tnc) loc).2.1 := by
  rcases rotateOne_cases counts tg tc tnc loc with h | ⟨t, n, _, _, _, _, h⟩
  · rw [h]; exact fun x hx => hx
  · rcases h with ⟨_, _, _, h⟩ | ⟨_, _, h⟩
    · rw [h]; exact List.subset_append_left _ _
    · rw [h]; exact fun x hx => hx

theorem rotateOne_inv (g : Grid) (clicked : Pos)
    (tg : List (List Tile)) (tc tnc : List Pos) (loc : Pos)
    (h : FloodInv g clicked (tg, tc, tnc))
    (hadj : ∃ p ∈ tc, adjacentPos p loc) :
    FloodInv g clicked (rotateOne g.mine_count_grid (tg, tc, tnc) loc) := by
  rcases rotateOne_cases g.mine_count_grid tg tc tnc loc with
    heq | ⟨t, n, h1, h2, hrev, hfl, hbr⟩
  · rw [heq]; exact h
  · have hcnt : g.getCount? loc.1 loc.2 = some n := h2
    have hbase : ∃ t0, lookup2 g.tile_grid loc.1 loc.2 = some t0 := by
      have hs := h.dom loc.1 loc.2
      rw [h1] at hs
      cases hb : lookup2 g.tile_grid loc.1 loc.2 with
      | none => rw [hb] at hs; simp at hs
      | some t0 => exact ⟨t0, rfl⟩
    obtain ⟨t0, ht0⟩ := hbase
    have hsk := h.skeleton loc.1 loc.2 t0 t ht0 h1
    have hold : ∀ r c t0', lookup2 g.tile_grid r c = some t0' →
        ∃ tm, lookup2 tg r c = some tm := by
      intro r c t0' hb
      have hs := h.dom r c
      rw [hb] at hs
      cases hm : lookup2 tg r c with
      | none => rw [hm] at hs; simp at hs
      | some tm => exact ⟨tm, rfl⟩
    have hdom' : ∀ r c,
        (lookup2 (modify2 tg loc.1 loc.2 Tile.mark_as_revealed) r c).isSome =
          (lookup2 g.tile_grid r c).isSome := by
      intro r c
      rw [lookup2_modify2_isSome]
      exact h.dom r c
    have hskel' : ∀ r c t0' t',
        lookup2 g.tile_grid r c = some t0' →
        lookup2 (modify2 tg loc.1 loc.2 Tile.mark_as_revealed) r c = some t' →
        t'.mine = t0'.mine ∧ t'.flagged = t0'.flagged := by
      intro r c t0' t' hb hnew
      obtain ⟨tm, hm', hmine, hflag, _⟩ :=
        lookup2_reveal_rev tg loc.1 loc.2 r c t' hnew
      have ⟨hmm, hff⟩ := h.skeleton r c t0' tm hb hm'
      exact ⟨by rw [hmine, hmm], by rw [hflag, hff]⟩
    have hmono' : ∀ r c t0' t',
        lookup2 g.tile_grid r c = some t0' →
        lookup2 (modify2 tg loc.1 loc.2 Tile.mark_as_revealed) r c = some t' →
        t0'.revealed = true → t'.revealed = true := by
      intro r c t0' t' hb hnew h0rev
      obtain ⟨tm, hml⟩ := hold r c t0' hb
      have hmrev := h.mono r c t0' tm hb hml h0rev
      obtain ⟨t'', hnew', _, _, hup⟩ :=
        lookup2_reveal tg loc.1 loc.2 r c tm hml
      rw [hnew] at hnew'
      injection hnew' with hnew'
      rw [← hnew'] at hup
      exact hup hmrev
    have hguard' : ∀ r c t0' t',
        lookup2 g.tile_grid r c = some t0' →
        lookup2 (modify2 tg loc.1 loc.2 Tile.mark_as_revealed) r c = some t' →
        t'.revealed = true →
        t0'.revealed = true ∨ (r, c) = clicked ∨
          (t0'.flagged = false ∧
            ((t0'.mine = false ∧ g.getCount? r c = some 0) ∨
              (∃ k, g.getCount? r c = some k ∧ 0 < k))) := by
      intro r c t0' t' hb hnew hrev'
      obtain ⟨tm, hm', hmine, hflag, hdown⟩ :=
        lookup2_reveal_rev tg loc.1 loc.2 r c t' hnew
      rcases hdown hrev' with hrevm | ⟨hr1, hr2⟩
      · exact h.guard r c t0' tm hb hm' hrevm
      · subst hr1; subst hr2
        rw [ht0] at hb
        injection hb with hb
        subst hb
        rw [h1] at hm'
        injection hm' with hm'
        right; right
        refine ⟨by rw [← hsk.2, hfl], ?_⟩
        rcases hbr with ⟨hm, hn, _, _⟩ | ⟨hn, _, _⟩
        · exact Or.inl ⟨by rw [← hsk.1, hm], by rw [hcnt, hn]⟩
        · exact Or.inr ⟨n, hcnt, hn⟩
    rcases hbr with ⟨hm, hn, hmem, heq⟩ | ⟨hn, hmem, heq⟩
    · -- empty neighbor: revealed and appended to to_check
      rw [heq]
      refine ⟨List.mem_append_left _ h.clicked_mem, hdom', hskel', hmono', hguard', ?_, ?_, ?_⟩
      · intro p hp
        rcases List.mem_append.mp hp with hp | hp
        · exact h.tc_empty p hp
        · have hpl : p = loc := List.mem_singleton.mp hp
          subst hpl
          exact Or.inr ⟨t0, ht0, by rw [← hsk.1, hm], by rw [hcnt, hn]⟩
      · intro p hp
        rcases List.mem_append.mp hp with hp | hp
        · obtain ⟨tp, hpl, hprev⟩ := h.tc_revealed p hp
          obtain ⟨tp', hpl', _, _, hup⟩ :=
            lookup2_reveal tg loc.1 loc.2 p.1 p.2 tp hpl
          exact ⟨tp', hpl', hup hprev⟩
        · have hpl : p = loc := List.mem_singleton.mp hp
          subst hpl
          refine ⟨t.mark_as_revealed, ?_, rfl⟩
          rw [lookup2_modify2_self, h1]
          rfl
      · intro r c t0' t' hb hnew h0 hrev'
        obtain ⟨tm, hm', _, _, hdown⟩ :=
          lookup2_reveal_rev tg loc.1 loc.2 r c t' hnew
        rcases hdown hrev' with hrevm | ⟨hr1, hr2⟩
        · rcases h.src r c t0' tm hb hm' h0 hrevm with hc | ⟨p, hp, hadj'⟩
          · exact Or.inl hc
          · exact Or.inr ⟨p, List.mem_append_left _ hp, hadj'⟩
        · subst hr1; subst hr2
          obtain ⟨p, hp, hadjp⟩ := hadj
          exact Or.inr ⟨p, List.mem_append_left _ hp, by
            rwa [show ((loc.1, loc.2) : Pos) = loc from rfl]⟩
    · -- indicator neighbor: revealed and appended to to_not_check
      rw [heq]
      refine ⟨h.clicked_mem, hdom', hskel', hmono', hguard', h.tc_empty, ?_, ?_⟩
      · intro p hp
        obtain ⟨tp, hpl, hprev⟩ := h.tc_revealed p hp
        obtain ⟨tp', hpl', _, _, hup⟩ :=
          lookup2_reveal tg loc.1 loc.2 p.1 p.2 tp hpl
        exact ⟨tp', hpl', hup hprev⟩
      · intro r c t0' t' hb hnew h0 hrev'
        obtain ⟨tm, hm', _, _, hdown⟩ :=
          lookup2_reveal_rev tg loc.1 loc.2 r c t' hnew
        rcases hdown hrev' with hrevm | ⟨hr1, hr2⟩
        · exact h.src r c t0' tm hb hm' h0 hrevm
        · subst hr1; subst hr2
          obtain ⟨p, hp, hadjp⟩ := hadj
          exact Or.inr ⟨p, hp, by
            rwa [show ((loc.1, loc.2) : Pos) = loc from rfl]⟩

theorem rotate_fold_inv (g : Grid) (clicked curr : Pos) :
    ∀ (l : List (Int × Int)), l ⊆ ROTATIONS →
    ∀ st, FloodInv g clicked st → curr ∈ st.2.1 →
    FloodInv g clicked
      (l.foldl (fun st d => rotateOne g.mine_count_grid st (curr.1 + d.1, curr.2 + d.2))
        st) := by
  intro l
  induction l with
  | nil => intro _ st h _; exact h
  | cons d ds ih =>
    intro hsub st h hc
    have hd : d ∈ ROTATIONS := hsub (List.mem_cons_self d ds)
    have hadj : ∃ p ∈ st.2.1, adjacentPos p (curr.1 + d.1, curr.2 + d.2) :=
      ⟨curr, hc, d, hd, rfl⟩
    have h' : FloodInv g clicked
        (rotateOne g.mine_count_grid st (curr.1 + d.1, curr.2 + d.2)) :=
      rotateOne_inv g clicked st.1 st.2.1 st.2.2 (curr.1 + d.1, curr.2 + d.2) h hadj
    have hc' : curr ∈ (rotateOne g.mine_count_grid st
        (curr.1 + d.1, curr.2 + d.2)).2.1 :=
      rotateOne_tc_sub g.mine_count_grid st.1 st.2.1 st.2.2
        (curr.1 + d.1, curr.2 + d.2) hc
    simp only [List.foldl_cons]
    exact ih (fun x hx => hsub (List.mem_cons_of_mem d hx)) _ h' hc'

theorem rotate_algorithm_inv (g : Grid) (clicked curr : Pos)
    (tg : List (List Tile)) (tc tnc : List Pos)
    (h : FloodInv g clicked (tg, tc, tnc)) (hc : curr ∈ tc) :
    FloodInv g clicked (rotate_algorithm g.mine_count_grid curr (tg, tc, tnc)) :=
  rotate_fold_inv g clicked curr ROTATIONS (fun _ hx => hx) (tg, tc, tnc) h hc

theorem fillLoop_inv (g : Grid) (clicked : Pos) :
    ∀ (fuel : Nat) (st : List (List Tile) × List Pos × List Pos) (i : Nat),
    FloodInv g clicked st →
    FloodInv g clicked (fillLoop g.mine_count_grid fuel st i) := by
  intro fuel
  induction fuel with
  | zero => intro st i h; exact h
  | succ k ih =>
    intro st i h
    obtain ⟨tg, tc, tnc⟩ := st
    unfold fillLoop
    cases hst : tc[i]? with
    | none => exact h
    | some loc =>
      have hmem : loc ∈ tc := List.getElem?_mem hst
      have h' := rotate_algorithm_inv g clicked loc tg tc tnc h hmem
      exact ih _ _ h'

theorem floodInv_init (g : Grid) (row col : Int) (t : Tile)
    (ht : lookup2 g.tile_grid row col = some t) (hm : t.mine = false)
    (hr : t.revealed = false) :
    FloodInv g (row, col)
      (modify2 g.tile_grid row col Tile.mark_as_revealed, [(row, col)], []) := by
  refine ⟨List.mem_singleton.mpr rfl, ?_, ?_, ?_, ?_, ?_, ?_, ?_⟩
  · intro r c
    exact lookup2_modify2_isSome g.tile_grid row col Tile.mark_as_revealed r c
  · intro r c t0 t' hb hnew
    obtain ⟨tm, hm', hmine, hflag, _⟩ :=
      lookup2_reveal_rev g.tile_grid row col r c t' hnew
    rw [hb] at hm'
    injection hm' with hm'
    subst hm'
    exact ⟨by rw [hmine], by rw [hflag]⟩
  · intro r c t0 t' hb hnew h0rev
    obtain ⟨t'', hnew', _, _, hup⟩ := lookup2_reveal g.tile_grid row col r c t0 hb
    rw [hnew] at hnew'
    injection hnew' with hnew'
    rw [← hnew'] at hup
    exact hup h0rev
  · intro r c t0 t' hb hnew hrev'
    obtain ⟨tm, hm', _, _, hdown⟩ :=
      lookup2_reveal_rev g.tile_grid row col r c t' hnew
    rw [hb] at hm'
    injection hm' with hm'
    subst hm'
    rcases hdown hrev' with hrevm | ⟨hr1, hr2⟩
    · exact Or.inl hrevm
    · subst hr1; subst hr2
      exact Or.inr (Or.inl rfl)
  · intro p hp
    have hpl : p = (row, col) := List.mem_singleton.mp hp
    subst hpl
    exact Or.inl rfl
  · intro p hp
    have hpl : p = (row, col) := List.mem_singleton.mp hp
    subst hpl
    refine ⟨t.mark_as_revealed, ?_, rfl⟩
    rw [lookup2_modify2_self, ht]
    rfl
  · intro r c t0 t' hb hnew h0 hrev'
    obtain ⟨tm, hm', _, _, hdown⟩ :=
      lookup2_reveal_rev g.tile_grid row col r c t' hnew
    rw [hb] at hm'
    injection hm' with hm'
    subst hm'
    rcases hdown hrev' with hrevm | ⟨hr1, hr2⟩
    · rw [hrevm] at h0; exact absurd h0 (by simp)
    · subst hr1; subst hr2
      exact Or.inl rfl

/-- Master description of open_tile: either the mine/already-revealed
short-circuit fires and nothing changes, or the flood-fill invariant
holds of the final state and only the tile grid was touched. -/
theorem open_tile_spec (g : Grid) (row col : Int) (g' : Grid) (out : List Pos)
    (h : g.open_tile row col = some (g', out)) :
    (g' = g ∧ out = [(row, col)] ∧
      ∃ t, g.getTile? row col = some t ∧ (t.mine = true ∨ t.revealed = true)) ∨
    (∃ t tc tnc, g.getTile? row col = some t ∧ t.mine = false ∧
      t.revealed = false ∧ out = tc ++ tnc ∧
      g'.grid_height = g.grid_height ∧ g'.grid_width = g.grid_width ∧
      g'.mine_count = g.mine_count ∧ g'.seed = g.seed ∧
      g'.mine_count_grid = g.mine_count_grid ∧
      FloodInv g (row, col) (g'.tile_grid, tc, tnc)) := by
  unfold Grid.open_tile at h
  cases ht : g.getTile? row col with
  | none => rw [ht] at h; exact Option.noConfusion h
  | some t =>
    rw [ht] at h
    dsimp only at h
    by_cases hb : (t.mine || t.revealed) = true
    · rw [if_pos hb] at h
      injection h with h
      rw [Prod.mk.injEq] at h
      obtain ⟨hG, hOut⟩ := h
      left
      refine ⟨hG.symm, hOut.symm, t, rfl, ?_⟩
      rcases Bool.or_eq_true_iff.mp hb with hm | hr
      · exact Or.inl hm
      · exact Or.inr hr
    · rw [if_neg hb] at h
      simp only [Bool.or_eq_true, not_or, Bool.not_eq_true] at hb
      obtain ⟨hm, hr⟩ := hb
      injection h with h
      have hinv0 := floodInv_init g row col t ht hm hr
      have hinv := fillLoop_inv g (row, col)
        (g.grid_height * g.grid_width + 1)
        (modify2 g.tile_grid row col Tile.mark_as_revealed, [(row, col)], []) 0 hinv0
      right
      set st := fillLoop g.mine_count_grid (g.grid_height * g.grid_width + 1)
        (modify2 g.tile_grid row col Tile.mark_as_revealed, [(row, col)], []) 0 with hst
      rw [Prod.mk.injEq] at h
      obtain ⟨hG, hOut⟩ := h
      refine ⟨t, st.2.1, st.2.2, rfl, hm, hr, hOut.symm, ?_, ?_, ?_, ?_, ?_, ?_⟩
      · rw [← hG]
      · rw [← hG]
      · rw [← hG]
      · rw [← hG]
      · rw [← hG]
      · have hg' : g'.tile_grid = st.1 := by rw [← hG]
        rw [hg']
        exact hinv

/-! Claim theorems about open_tile. -/

/-- Claim C6: openTile on an in-range tile that has a mine or is
already revealed performs no state change at all and returns exactly
the singleton [(row, col)]; consequently openTile is idempotent: a
second call at the same coordinate returns the singleton and leaves
the grid unchanged. -/
theorem open_tile_short_circuit (g : Grid) (row col : Int) (t : Tile)
    (ht : g.getTile? row col = some t) :
    ((t.mine = true ∨ t.revealed = true) →
      g.open_tile row col = some (g, [(row, col)])) ∧
    (∀ g' out, g.open_tile row col = some (g', out) →
      g'.open_tile row col = some (g', [(row, col)])) := by
  constructor
  · intro hc
    unfold Grid.open_tile
    rw [ht]
    dsimp only
    rw [if_pos (by rcases hc with hc | hc <;> simp [hc])]
  · intro g' out hopen
    rcases open_tile_spec g row col g' out hopen with
      ⟨hG, _, t', ht', hc⟩ | ⟨t', tc, tnc, _, _, _, _, _, _, _, _, _, hinv⟩
    · subst hG
      unfold Grid.open_tile
      rw [ht']
      dsimp only
      rw [if_pos (by rcases hc with hc | hc <;> simp [hc])]
    · obtain ⟨tr, htr, hrev⟩ := hinv.tc_revealed (row, col) hinv.clicked_mem
      have htr' : g'.getTile? row col = some tr := htr
      unfold Grid.open_tile
      rw [htr']
      dsimp only
      rw [if_pos (by simp [hrev])]

/-- Claim C3 (amended): openTile never changes any flag bit, and never
reveals a flagged unrevealed tile other than the clicked tile itself
(the short-circuit does not test the flag of the clicked tile, so a
flagged, unrevealed, mine-free clicked tile does get revealed). -/
theorem open_tile_flag_protection (g : Grid) (row col : Int) (g' : Grid)
    (out : List Pos) (h : g.open_tile row col = some (g', out)) :
    (∀ r c t0 t, g.getTile? r c = some t0 → g'.getTile? r c = some t →
      t.flagged = t0.flagged) ∧
    (∀ r c t0 t, g.getTile? r c = some t0 → g'.getTile? r c = some t →
      ¬(r = row ∧ c = col) → t0.flagged = true → t0.revealed = false →
      t.revealed = false) := by
  rcases open_tile_spec g row col g' out h with
    ⟨hG, _, _⟩ | ⟨t', tc, tnc, _, _, _, _, _, _, _, _, _, hinv⟩
  · subst hG
    constructor
    · intro r c t0 t h0 h1
      rw [h0] at h1
      injection h1 with h1
      rw [h1]
    · intro r c t0 t h0 h1 _ _ hr
      rw [h0] at h1
      injection h1 with h1
      rw [h1] at hr
      exact hr
  · constructor
    · intro r c t0 t h0 h1
      exact (hinv.skeleton r c t0 t h0 h1).2
    · intro r c t0 t h0 h1 hne hf hr
      cases hrev : t.revealed with
      | false => rfl
      | true =>
        rcases hinv.guard r c t0 t h0 h1 hrev with hg1 | hg2 | ⟨hg3, _⟩
        · rw [hg1] at hr; exact Bool.noConfusion hr
        · exact absurd ⟨congrArg Prod.fst hg2, congrArg Prod.snd hg2⟩ hne
        · rw [hg3] at hf; exact Bool.noConfusion hf

/-- Claim C1 (amended): every tile newly revealed by a single openTile
call is the clicked tile or an 8-neighbor of an expansion source,
where every expansion source is the clicked tile itself or an empty
tile (no mine, stored count 0) left revealed by the call. In
particular an indicator revealed by the fill, other than the clicked
tile, is never expanded to its neighbors. -/
theorem open_tile_expansion_sources (g : Grid) (row col : Int) (g' : Grid)
    (out : List Pos) (h : g.open_tile row col = some (g', out)) :
    ∀ r c t0 t, g.getTile? r c = some t0 → g'.getTile? r c = some t →
      t0.revealed = false → t.revealed = true →
      (r, c) = ((row, col) : Pos) ∨
      ∃ p, adjacentPos p (r, c) ∧
        (p = ((row, col) : Pos) ∨
          (∃ tp0, g.getTile? p.1 p.2 = some tp0 ∧ tp0.mine = false ∧
            g.getCount? p.1 p.2 = some 0 ∧
            ∃ tp, g'.getTile? p.1 p.2 = some tp ∧ tp.revealed = true)) := by
  rcases open_tile_spec g row col g' out h with
    ⟨hG, _, _⟩ | ⟨t', tc, tnc, _, _, _, _, _, _, _, _, _, hinv⟩
  · subst hG
    intro r c t0 t h0 h1 hr0 hr1
    rw [h0] at h1
    injection h1 with h1
    rw [h1] at hr0
    rw [hr0] at hr1
    exact Bool.noConfusion hr1
  · intro r c t0 t h0 h1 hr0 hr1
    rcases hinv.src r c t0 t h0 h1 hr0 hr1 with hc | ⟨p, hp, hadjp⟩
    · exact Or.inl hc
    · right
      refine ⟨p, hadjp, ?_⟩
      rcases hinv.tc_empty p hp with hpc | ⟨tp0, hpl, hpm, hpcnt⟩
      · exact Or.inl hpc
      · right
        obtain ⟨tp, hptl, hprev⟩ := hinv.tc_revealed p hp
        exact ⟨tp0, hpl, hpm, hpcnt, tp, hptl, hprev⟩

/-! check_win. -/

theorem lookup2_eq_some_elim {m : List (List α)} {r c : Int} {a : α}
    (h : lookup2 m r c = some a) :
    ∃ rowl, m[r.toNat]? = some rowl ∧ rowl[c.toNat]? = some a := by
  unfold lookup2 at h
  by_cases hg : 0 ≤ r ∧ 0 ≤ c
  · rw [if_pos hg] at h
    cases hm : m[r.toNat]? with
    | none => rw [hm] at h; exact Option.noConfusion h
    | some rowl => rw [hm] at h; exact ⟨rowl, rfl, h⟩
  · rw [if_neg hg] at h
    exact Option.noConfusion h

theorem lookup2_of_getElem? {m : List (List α)} {i j : Nat} {row : List α} {a : α}
    (h1 : m[i]? = some row) (h2 : row[j]? = some a) :
    lookup2 m (↑i) (↑j) = some a := by
  unfold lookup2
  rw [if_pos ⟨Int.natCast_nonneg i, Int.natCast_nonneg j⟩]
  simp only [Int.toNat_natCast]
  rw [h1]
  exact h2

/-- The dictionary-values iteration of check_win, as a per-key
property. -/
theorem check_win_iff_lookup (g : Grid) :
    g.check_win = true ↔
      ∀ r c t, g.getTile? r c = some t →
        ((t.flagged = true ∧ t.mine = true) ∨
          (t.revealed = true ∧ t.mine = false)) := by
  unfold Grid.check_win
  rw [List.all_eq_true]
  constructor
  · intro hall r c t hl
    obtain ⟨rowl, h1, h2⟩ := lookup2_eq_some_elim hl
    have hrow := hall rowl (List.getElem?_mem h1)
    rw [List.all_eq_true] at hrow
    have := hrow t (List.getElem?_mem h2)
    simpa [Bool.and_eq_true, Bool.or_eq_true, Bool.not_eq_true'] using this
  · intro hb row hrowmem
    rw [List.all_eq_true]
    intro t htmem
    obtain ⟨i, hi⟩ := List.getElem?_of_mem hrowmem
    obtain ⟨j, hj⟩ := List.getElem?_of_mem htmem
    have := hb ↑i ↑j t (lookup2_of_getElem? hi hj)
    simpa [Bool.and_eq_true, Bool.or_eq_true, Bool.not_eq_true'] using this

/-- Claim C5: checkWin is true exactly when every tile is a correctly
flagged mine or a revealed safe tile; flagging all mines and revealing
all safe tiles wins, and one unrevealed safe tile loses. -/
theorem check_win_characterization (g : Grid) :
    (g.check_win = true ↔
      ∀ r c t, g.getTile? r c = some t →
        ((t.flagged = true ∧ t.mine = true) ∨
          (t.revealed = true ∧ t.mine = false))) ∧
    ((∀ r c t, g.getTile? r c = some t →
        (t.mine = true → t.flagged = true) ∧
        (t.mine = false → t.revealed = true)) →
      g.check_win = true) ∧
    (∀ r c t, g.getTile? r c = some t → t.mine = false → t.revealed = false →
      g.check_win = false) := by
  refine ⟨check_win_iff_lookup g, ?_, ?_⟩
  · intro hall
    rw [check_win_iff_lookup g]
    intro r c t hl
    obtain ⟨h1, h2⟩ := hall r c t hl
    cases hm : t.mine with
    | true => exact Or.inl ⟨h1 hm, rfl⟩
    | false => exact Or.inr ⟨h2 hm, rfl⟩
  · intro r c t hl hm hr
    cases hcw : g.check_win with
    | false => rfl
    | true =>
      rcases (check_win_iff_lookup g).mp hcw r c t hl with ⟨_, hmm⟩ | ⟨hrr, _⟩
      · rw [hm] at hmm; exact Bool.noConfusion hmm
      · rw [hr] at hrr; exact Bool.noConfusion hrr

/-- Claim C4 (amended): a grid with a flagged, unrevealed, mine-free
tile never passes checkWin. A flagged safe tile that is also revealed
(flag placed on a revealed tile, which place_flag permits with a
warning) satisfies the revealed-and-safe disjunct, so the original
claim fails on such states. -/
theorem check_win_false_of_flagged_unrevealed_safe (g : Grid) (r c : Int)
    (t : Tile) (hl : g.getTile? r c = some t) (hm : t.mine = false)
    (hf : t.flagged = true) (hr : t.revealed = false) :
    g.check_win = false := by
  cases hcw : g.check_win with
  | false => rfl
  | true =>
    rcases (check_win_iff_lookup g).mp hcw r c t hl with ⟨_, hmm⟩ | ⟨hrr, _⟩
    · rw [hm] at hmm; exact Bool.noConfusion hmm
    · rw [hr] at hrr; exact Bool.noConfusion hrr

/-! Construction lemmas. -/

/-- Total number of mines stored in a tile grid. -/
def countMines (tg : List (List Tile)) : Nat :=
  (tg.map fun row => row.countP fun t => t.mine).sum

theorem lookup2_modify2_rev {m : List (List α)} {r c r' c' : Int} {f : α → α}
    {a' : α} (h : lookup2 (modify2 m r c f) r' c' = some a') :
    ∃ a, lookup2 m r' c' = some a ∧ (a' = f a ∨ a' = a) := by
  by_cases he : r' = r ∧ c' = c
  · obtain ⟨h1, h2⟩ := he
    subst h1; subst h2
    rw [lookup2_modify2_self] at h
    cases hm : lookup2 m r' c' with
    | none => rw [hm] at h; exact Option.noConfusion h
    | some a =>
      rw [hm] at h
      simp only [Option.map_some'] at h
      injection h with h
      exact ⟨a, rfl, Or.inl h.symm⟩
  · rw [lookup2_modify2_ne _ _ _ _ _ _ he] at h
    exact ⟨a', h, Or.inr rfl⟩

theorem countP_modifyAt_place_mine :
    ∀ (l : List Tile) (k : Nat) (t : Tile), l[k]? = some t → t.mine = false →
    (modifyAt Tile.place_mine l k).countP (fun t => t.mine) =
      l.countP (fun t => t.mine) + 1 := by
  intro l
  induction l with
  | nil => intro k t h; exact Option.noConfusion h
  | cons x xs ih =>
    intro k t h hm
    cases k with
    | zero =>
      simp only [List.getElem?_cons_zero] at h
      injection h with h
      subst h
      simp [modifyAt, List.countP_cons, Tile.place_mine, hm]
    | succ j =>
      simp only [List.getElem?_cons_succ] at h
      simp only [modifyAt, List.countP_cons]
      rw [ih j t h hm]
      omega

theorem sum_map_modifyAt (g : List Tile → Nat) (f : List Tile → List Tile) :
    ∀ (m : List (List Tile)) (n : Nat) (row : List Tile), m[n]? = some row →
    ((modifyAt f m n).map g).sum + g row = (m.map g).sum + g (f row) := by
  intro m
  induction m with
  | nil => intro n row h; exact Option.noConfusion h
  | cons x xs ih =>
    intro n row h
    cases n with
    | zero =>
      simp only [List.getElem?_cons_zero] at h
      injection h with h
      subst h
      simp only [modifyAt, List.map_cons, List.sum_cons]
      omega
    | succ j =>
      simp only [List.getElem?_cons_succ] at h
      simp only [modifyAt, List.map_cons, List.sum_cons]
      have := ih j row h
      omega

theorem countMines_modify2_place {tg : List (List Tile)} {r c : Int} {t : Tile}
    (hl : lookup2 tg r c = some t) (hm : t.mine = false) :
    countMines (modify2 tg r c Tile.place_mine) = countMines tg + 1 := by
  obtain ⟨rowl, h1, h2⟩ := lookup2_eq_some_elim hl
  have hg : 0 ≤ r ∧ 0 ≤ c := by
    by_contra hng
    unfold lookup2 at hl
    rw [if_neg hng] at hl
    exact Option.noConfusion hl
  unfold modify2 countMines
  rw [if_pos hg]
  have hsum := sum_map_modifyAt (fun row => row.countP fun t => t.mine)
    (fun row => modifyAt Tile.place_mine row c.toNat) tg r.toNat rowl h1
  have hinner := countP_modifyAt_place_mine rowl c.toNat t h2 hm
  simp only at hsum
  omega

theorem place_one_mine_spec (h w : Nat) (s : Nat → Nat) :
    ∀ (fuel idx : Nat) (tg tg' : List (List Tile)) (idx' : Nat),
    place_one_mine h w s fuel idx tg = some (tg', idx') →
    ∃ r c t, lookup2 tg r c = some t ∧ t.mine = false ∧
      tg' = modify2 tg r c Tile.place_mine := by
  intro fuel
  induction fuel with
  | zero => intro idx tg tg' idx' hp; exact Option.noConfusion hp
  | succ k ih =>
    intro idx tg tg' idx' hp
    unfold place_one_mine generate_rnd_position at hp
    dsimp only at hp
    cases hl : lookup2 tg ((s idx % h : Nat) : Int) ((s (idx + 1) % w : Nat) : Int) with
    | none => rw [hl] at hp; exact Option.noConfusion hp
    | some t =>
      rw [hl] at hp
      dsimp only at hp
      by_cases hm : t.mine = true
      · rw [if_pos hm] at hp
        exact ih _ _ _ _ hp
      · rw [if_neg hm] at hp
        injection hp with hp
        rw [Prod.mk.injEq] at hp
        exact ⟨_, _, t, hl, Bool.not_eq_true _ ▸ hm, hp.1.symm⟩

theorem place_random_mines_spec (h w : Nat) (s : Nat → Nat) (fuel : Nat) :
    ∀ (m idx : Nat) (tg tg' : List (List Tile)) (idx' : Nat),
    place_random_mines h w s fuel m idx tg = some (tg', idx') →
    countMines tg' = countMines tg + m ∧
    (∀ hh ww, Dims tg hh ww → Dims tg' hh ww) ∧
    (∀ r c t', lookup2 tg' r c = some t' →
      ∃ t, lookup2 tg r c = some t ∧
        t'.revealed = t.revealed ∧ t'.flagged = t.flagged) := by
  intro m
  induction m with
  | zero =>
    intro idx tg tg' idx' hp
    unfold place_random_mines at hp
    injection hp with hp
    rw [Prod.mk.injEq] at hp
    rw [← hp.1]
    exact ⟨rfl, fun _ _ hd => hd, fun r c t' hl => ⟨t', hl, rfl, rfl⟩⟩
  | succ k ih =>
    intro idx tg tg' idx' hp
    unfold place_random_mines at hp
    cases hone : place_one_mine h w s fuel idx tg with
    | none => rw [hone] at hp; exact Option.noConfusion hp
    | some p =>
      rw [hone] at hp
      obtain ⟨tg1, idx1⟩ := p
      obtain ⟨r0, c0, t0, hl0, hm0, htg1⟩ :=
        place_one_mine_spec h w s fuel idx tg tg1 idx1 hone
      obtain ⟨hcount, hdims, hfields⟩ := ih idx1 tg1 tg' idx' hp
      refine ⟨?_, ?_, ?_⟩
      · rw [hcount, htg1, countMines_modify2_place hl0 hm0]
        omega
      · intro hh ww hd
        exact hdims hh ww (htg1 ▸ dims_modify2 hd r0 c0 Tile.place_mine)
      · intro r c t' hl'
        obtain ⟨t1, hl1, hrev1, hfl1⟩ := hfields r c t' hl'
        rw [htg1] at hl1
        obtain ⟨t, hl, hcase⟩ := lookup2_modify2_rev hl1
        refine ⟨t, hl, ?_, ?_⟩
        · rcases hcase with hcase | hcase <;>
            rw [hrev1, hcase] <;> rfl
        · rcases hcase with hcase | hcase <;>
            rw [hfl1, hcase] <;> rfl

theorem dims_init_tile_grid (h w : Nat) : Dims (init_tile_grid h w) h w := by
  unfold init_tile_grid Dims
  refine ⟨List.length_replicate _ _, ?_⟩
  intro row hrow
  rw [List.eq_of_mem_replicate hrow]
  exact List.length_replicate _ _

theorem countMines_init (h w : Nat) : countMines (init_tile_grid h w) = 0 := by
  unfold countMines init_tile_grid
  rw [List.map_replicate]
  have : (List.replicate w ({} : Tile)).countP (fun t => t.mine) = 0 := by
    rw [List.countP_eq_length_filter]
    rw [List.filter_replicate]
    rfl
  rw [this]
  simp

theorem init_tile_grid_entries (h w : Nat) (r c : Int) (t : Tile)
    (hl : lookup2 (init_tile_grid h w) r c = some t) :
    t = {} := by
  obtain ⟨rowl, h1, h2⟩ := lookup2_eq_some_elim hl
  have hrow : rowl = List.replicate w {} := by
    have := List.getElem?_mem h1
    exact List.eq_of_mem_replicate this
  rw [hrow] at h2
  have := List.getElem?_mem h2
  exact List.eq_of_mem_replicate this

theorem dims_generate_indicators (h w : Nat) (tg : List (List Tile)) :
    Dims (generate_indicators h w tg) h w := by
  unfold generate_indicators Dims
  refine ⟨by rw [List.length_map, List.length_range], ?_⟩
  intro row hrow
  obtain ⟨r, _, hr⟩ := List.mem_map.mp hrow
  rw [← hr, List.length_map, List.length_range]

theorem lookup2_generate_indicators {tg : List (List Tile)} {h w : Nat}
    (hd : Dims tg h w) (r c : Int) :
    lookup2 (generate_indicators h w tg) r c =
      (lookup2 tg r c).map fun t =>
        if t.mine then 0 else find_surrounding_mine_count tg r c := by
  by_cases hg : 0 ≤ r ∧ 0 ≤ c
  · have hcast_r : ((r.toNat : Nat) : Int) = r := by omega
    have hcast_c : ((c.toNat : Nat) : Int) = c := by omega
    unfold lookup2 generate_indicators
    rw [if_pos hg]
    rw [List.getElem?_map]
    by_cases hr : r.toNat < h
    · rw [List.getElem?_range hr]
      simp only [Option.map_some']
      rw [List.getElem?_map]
      by_cases hc : c.toNat < w
      · rw [List.getElem?_range hc]
        simp only [Option.map_some']
        have hs : (lookup2 tg r c).isSome := by
          rw [lookup2_isSome_iff hd]
          omega
        cases hl : lookup2 tg r c with
        | none => rw [hl] at hs; exact Bool.noConfusion hs
        | some t =>
          rw [hcast_r, hcast_c, hl]
          have hunf : lookup2 tg r c = some t := hl
          unfold lookup2 at hunf
          rw [if_pos hg] at hunf
          cases hm : tg[r.toNat]? with
          | none => rw [hm] at hunf; exact Option.noConfusion hunf
          | some rowl =>
            rw [hm] at hunf
            rw [hunf, if_pos hg]
            rfl
      · have hnone : lookup2 tg r c = none := by
          apply lookup2_eq_none_outside hd
          omega
        rw [List.getElem?_eq_none
          (show (List.range w).length ≤ c.toNat by rw [List.length_range]; omega)]
        exact (show (lookup2 tg r c).map (fun t =>
          if t.mine then 0 else find_surrounding_mine_count tg r c) = none by
            rw [hnone]; rfl).symm
    · have hnone : lookup2 tg r c = none := by
        apply lookup2_eq_none_outside hd
        omega
      rw [List.getElem?_eq_none
        (show (List.range h).length ≤ r.toNat by rw [List.length_range]; omega)]
      exact (show (lookup2 tg r c).map (fun t =>
        if t.mine then 0 else find_surrounding_mine_count tg r c) = none by
          rw [hnone]; rfl).symm
  · unfold lookup2 generate_indicators
    rw [if_neg hg, if_neg hg]
    rfl

theorem set_up_grid_spec (h w m : Nat) (s : Nat → Nat) (fuel idx : Nat)
    (tg : List (List Tile)) (cg : List (List Nat)) (idx' : Nat)
    (hs : set_up_grid h w m s fuel idx = some ((tg, cg), idx')) :
    Dims tg h w ∧ Dims cg h w ∧ countMines tg = m ∧
    (∀ r c t, lookup2 tg r c = some t →
      t.revealed = false ∧ t.flagged = false) ∧
    (∀ r c, lookup2 cg r c =
      (lookup2 tg r c).map fun t =>
        if t.mine then 0 else find_surrounding_mine_count tg r c) := by
  unfold set_up_grid at hs
  cases hp : place_random_mines h w s fuel m idx (init_tile_grid h w) with
  | none => rw [hp] at hs; exact Option.noConfusion hs
  | some p =>
    rw [hp] at hs
    obtain ⟨tg0, idx0⟩ := p
    injection hs with hs
    rw [Prod.mk.injEq] at hs
    obtain ⟨hs1, _⟩ := hs
    rw [Prod.mk.injEq] at hs1
    obtain ⟨htg, hcg⟩ := hs1
    subst htg
    obtain ⟨hcount, hdims, hfields⟩ :=
      place_random_mines_spec h w s fuel m idx (init_tile_grid h w) tg0 idx0 hp
    have hdtg : Dims tg0 h w := hdims h w (dims_init_tile_grid h w)
    refine ⟨hdtg, ?_, ?_, ?_, ?_⟩
    · rw [← hcg]; exact dims_generate_indicators h w tg0
    · rw [hcount, countMines_init]; omega
    · intro r c t hl
      obtain ⟨t0, hl0, hrev, hfl⟩ := hfields r c t hl
      rw [init_tile_grid_entries h w r c t0 hl0] at hrev hfl
      exact ⟨hrev, hfl⟩
    · intro r c
      rw [← hcg]
      exact lookup2_generate_indicators hdtg r c

theorem mkGrid_spec (env : RandomEnv) (h w m : Int) (sa : Option Int)
    (fuel : Nat) (g : Grid) (idx : Nat)
    (hmk : mkGrid env h w m sa fuel = .ok (some (g, idx))) :
    g.grid_height = h.toNat ∧ g.grid_width = w.toNat ∧
    g.mine_count = m.toNat ∧
    Dims g.tile_grid h.toNat w.toNat ∧ Dims g.mine_count_grid h.toNat w.toNat ∧
    countMines g.tile_grid = m.toNat ∧
    (∀ r c t, lookup2 g.tile_grid r c = some t →
      t.revealed = false ∧ t.flagged = false) ∧
    (∀ r c, lookup2 g.mine_count_grid r c =
      (lookup2 g.tile_grid r c).map fun t =>
        if t.mine then 0 else find_surrounding_mine_count g.tile_grid r c) := by
  unfold mkGrid at hmk
  cases hv : check_valid_grid_arguments h w m with
  | error e => rw [hv] at hmk; exact Except.noConfusion hmk
  | ok u =>
    rw [hv] at hmk
    dsimp only at hmk
    cases hs : set_up_grid h.toNat w.toNat m.toNat (env.stream sa) fuel 0 with
    | none => rw [hs] at hmk; injection hmk with hmk; exact Option.noConfusion hmk
    | some p =>
      rw [hs] at hmk
      obtain ⟨⟨tg, cg⟩, idx0⟩ := p
      injection hmk with hmk
      injection hmk with hmk
      rw [Prod.mk.injEq] at hmk
      obtain ⟨hG, _⟩ := hmk
      obtain ⟨hd1, hd2, hcnt, hfresh, hcg⟩ :=
        set_up_grid_spec h.toNat w.toNat m.toNat (env.stream sa) fuel 0 tg cg idx0 hs
      rw [← hG]
      exact ⟨rfl, rfl, rfl, hd1, hd2, hcnt, hfresh, hcg⟩

/-! Indicator counts against the specification wording. -/

/-- Whether the tile stored at a key has a mine; false for absent keys. -/
def mineAt (g : Grid) (r c : Int) : Bool :=
  match g.getTile? r c with
  | some t => t.mine
  | none => false

/-- The eight neighbor offsets exactly as the specification words them:
row and column each independently shifted by -1, 0, +1, excluding the
(0, 0) self-offset. -/
def specNeighborOffsets : List (Int × Int) :=
  (([-1, 0, 1] : List Int).bind fun dr =>
    ([-1, 0, 1] : List Int).map fun dc => (dr, dc)).filter fun d => d ≠ (0, 0)

/-- The count of mines among the up-to-8 neighbors, per the
specification: out-of-range neighbor coordinates contribute nothing. -/
def specSurroundingMineCount (g : Grid) (r c : Int) : Nat :=
  (specNeighborOffsets.filter fun d =>
    decide (0 ≤ r + d.1) && decide (r + d.1 < (g.grid_height : Int)) &&
    decide (0 ≤ c + d.2) && decide (c + d.2 < (g.grid_width : Int)) &&
    mineAt g (r + d.1) (c + d.2)).length

theorem find_surrounding_eq_countP (tg : List (List Tile)) (r c : Int) :
    find_surrounding_mine_count tg r c =
      (ROTATIONS.filter fun d =>
        match lookup2 tg (r + d.1) (c + d.2) with
        | some t => t.mine
        | none => false).length := by
  unfold find_surrounding_mine_count
  have key : ∀ (l : List (Int × Int)) (acc : Nat),
      l.foldl (fun count d =>
        match lookup2 tg (r + d.1) (c + d.2) with
        | some t => if t.mine then count + 1 else count
        | none => count) acc =
      acc + (l.filter fun d =>
        match lookup2 tg (r + d.1) (c + d.2) with
        | some t => t.mine
        | none => false).length := by
    intro l
    induction l with
    | nil => intro acc; simp
    | cons d ds ih =>
      intro acc
      simp only [List.foldl_cons, List.filter_cons]
      cases hl : lookup2 tg (r + d.1) (c + d.2) with
      | none =>
        dsimp only
        rw [ih]
        simp
      | some t =>
        dsimp only
        cases hm : t.mine with
        | false =>
          rw [if_neg Bool.false_ne_true]
          rw [ih]
          simp
        | true =>
          rw [if_pos rfl]
          rw [ih]
          rw [if_pos rfl]
          rw [List.length_cons]
          omega
  rw [key ROTATIONS 0]
  omega

theorem find_surrounding_eq_spec (g : Grid)
    (hd : Dims g.tile_grid g.grid_height g.grid_width) (r c : Int) :
    find_surrounding_mine_count g.tile_grid r c = specSurroundingMineCount g r c := by
  rw [find_surrounding_eq_countP]
  unfold specSurroundingMineCount
  have hoff : specNeighborOffsets = ROTATIONS := by decide
  rw [hoff]
  congr 1
  apply List.filter_congr
  intro d _
  cases hl : lookup2 g.tile_grid (r + d.1) (c + d.2) with
  | none =>
    have hout : ¬(0 ≤ r + d.1 ∧ r + d.1 < (g.grid_height : Int) ∧
        0 ≤ c + d.2 ∧ c + d.2 < (g.grid_width : Int)) := by
      intro hb
      have := (lookup2_isSome_iff hd _ _).mpr hb
      rw [hl] at this
      exact Bool.noConfusion this
    unfold mineAt Grid.getTile?
    rw [hl]
    simp
  | some t =>
    have hin := (lookup2_isSome_iff hd (r + d.1) (c + d.2)).mp (by rw [hl]; rfl)
    unfold mineAt Grid.getTile?
    rw [hl]
    simp [hin.1, hin.2.1, hin.2.2.1, hin.2.2.2]

/-- Claim C8: after construction, every mine-free tile stores exactly
the count of its in-range 8-neighbors that hold mines, with
out-of-range neighbor coordinates contributing nothing. -/
theorem mine_counts_correct (env : RandomEnv) (h w m : Int) (sa : Option Int)
    (fuel : Nat) (g : Grid) (idx : Nat)
    (hmk : mkGrid env h w m sa fuel = .ok (some (g, idx))) :
    ∀ r c t, g.getTile? r c = some t → t.mine = false →
      g.getCount? r c = some (specSurroundingMineCount g r c) := by
  obtain ⟨hh, hw, _, hd1, _, _, _, hcg⟩ := mkGrid_spec env h w m sa fuel g idx hmk
  intro r c t hl hm
  have hthis := hcg r c
  rw [show lookup2 g.tile_grid r c = some t from hl] at hthis
  unfold Grid.getCount?
  rw [hthis]
  simp only [Option.map_some']
  rw [if_neg (by rw [hm]; exact Bool.noConfusion)]
  have hd : Dims g.tile_grid g.grid_height g.grid_width := by
    rw [hh, hw]
    exact hd1
  rw [find_surrounding_eq_spec g hd r c]

/-- Claim C9: once construction completes, exactly mineCount tiles
hold a mine (mine placement having terminated after exactly that many
distinct placements), and both maps hold exactly one entry per
in-range coordinate: a dense grid with no sparse holes. -/
theorem construction_counts (env : RandomEnv) (h w m : Int) (sa : Option Int)
    (fuel : Nat) (g : Grid) (idx : Nat)
    (hmk : mkGrid env h w m sa fuel = .ok (some (g, idx))) :
    countMines g.tile_grid = m.toNat ∧ g.mine_count = m.toNat ∧
    (∀ r c, (g.getTile? r c).isSome ↔
      (0 ≤ r ∧ r < (g.grid_height : Int) ∧ 0 ≤ c ∧ c < (g.grid_width : Int))) ∧
    (∀ r c, (g.getCount? r c).isSome ↔
      (0 ≤ r ∧ r < (g.grid_height : Int) ∧ 0 ≤ c ∧ c < (g.grid_width : Int))) := by
  obtain ⟨hh, hw, hmc, hd1, hd2, hcnt, _, _⟩ := mkGrid_spec env h w m sa fuel g idx hmk
  refine ⟨hcnt, hmc, ?_, ?_⟩
  · intro r c
    unfold Grid.getTile?
    rw [lookup2_isSome_iff (by rw [hh, hw]; exact hd1 : Dims g.tile_grid g.grid_height g.grid_width)]
  · intro r c
    unfold Grid.getCount?
    rw [lookup2_isSome_iff (by rw [hh, hw]; exact hd2 : Dims g.mine_count_grid g.grid_height g.grid_width)]

/-! Validation. -/

theorem mkGrid_error_iff (env : RandomEnv) (h w m : Int) (sa : Option Int)
    (fuel : Nat) (e : ValidationError) :
    mkGrid env h w m sa fuel = .error e ↔
      check_valid_grid_arguments h w m = .error e := by
  unfold mkGrid
  cases hv : check_valid_grid_arguments h w m with
  | error e' =>
    dsimp only
    constructor
    · intro hc; injection hc with hc; rw [hc]
    · intro hc; injection hc with hc; rw [hc]
  | ok u =>
    dsimp only
    cases hs : set_up_grid h.toNat w.toNat m.toNat (env.stream sa) fuel 0 with
    | none =>
      constructor
      · intro hcontra; exact Except.noConfusion hcontra
      · intro hcontra; exact Except.noConfusion hcontra
    | some p =>
      obtain ⟨⟨tg, cg⟩, i⟩ := p
      constructor
      · intro hcontra; exact Except.noConfusion hcontra
      · intro hcontra; exact Except.noConfusion hcontra

theorem check_valid_cases (h w m : Int) :
    (check_valid_grid_arguments h w m = .error .tooSmall ↔ (h < 5 ∨ w < 5)) ∧
    (check_valid_grid_arguments h w m = .error .notEnoughMines ↔
      (¬(h < 5 ∨ w < 5) ∧ m < 1)) ∧
    (check_valid_grid_arguments h w m = .error .tooManyMines ↔
      (¬(h < 5 ∨ w < 5) ∧ ¬(m < 1) ∧ m > h * w)) ∧
    ((∃ e, check_valid_grid_arguments h w m = .error e) ↔
      (h < 5 ∨ w < 5 ∨ m < 1 ∨ m > h * w)) := by
  unfold check_valid_grid_arguments
  by_cases h1 : h < 5 ∨ w < 5
  · rw [if_pos h1]
    refine ⟨?_, ?_, ?_, ?_⟩
    · simp [h1]
    · constructor
      · intro hc
        injection hc with hc
        exact absurd hc.symm (by intro hc; exact ValidationError.noConfusion hc)
      · intro ⟨hc, _⟩; exact absurd h1 hc
    · constructor
      · intro hc
        injection hc with hc
        exact absurd hc.symm (by intro hc; exact ValidationError.noConfusion hc)
      · intro ⟨hc, _⟩; exact absurd h1 hc
    · constructor
      · intro _; rcases h1 with h1 | h1
        · exact Or.inl h1
        · exact Or.inr (Or.inl h1)
      · intro _; exact ⟨.tooSmall, rfl⟩
  · rw [if_neg h1]
    by_cases h2 : m < 1
    · rw [if_pos h2]
      refine ⟨?_, ?_, ?_, ?_⟩
      · constructor
        · intro hc
          injection hc with hc
          exact absurd hc (by intro hc; exact ValidationError.noConfusion hc)
        · intro hc; exact absurd hc h1
      · simp [h1, h2]
      · constructor
        · intro hc
          injection hc with hc
          exact absurd hc (by intro hc; exact ValidationError.noConfusion hc)
        · intro ⟨_, hc, _⟩; exact absurd h2 hc
      · constructor
        · intro _
          exact Or.inr (Or.inr (Or.inl h2))
        · intro _; exact ⟨.notEnoughMines, rfl⟩
    · rw [if_neg h2]
      by_cases h3 : m > h * w
      · rw [if_pos h3]
        refine ⟨?_, ?_, ?_, ?_⟩
        · constructor
          · intro hc
            injection hc with hc
            exact absurd hc (by intro hc; exact ValidationError.noConfusion hc)
          · intro hc; exact absurd hc h1
        · constructor
          · intro hc
            injection hc with hc
            exact absurd hc (by intro hc; exact ValidationError.noConfusion hc)
          · intro ⟨_, hc⟩; exact absurd hc h2
        · simp [h1, h2, h3]
        · constructor
          · intro _
            exact Or.inr (Or.inr (Or.inr h3))
          · intro _; exact ⟨.tooManyMines, rfl⟩
      · rw [if_neg h3]
        refine ⟨?_, ?_, ?_, ?_⟩
        · constructor
          · intro hc; exact Except.noConfusion hc
          · intro hc; exact absurd hc h1
        · constructor
          · intro hc; exact Except.noConfusion hc
          · intro ⟨_, hc⟩; exact absurd hc h2
        · constructor
          · intro hc; exact Except.noConfusion hc
          · intro ⟨_, _, hc⟩; exact absurd hc h3
        · constructor
          · intro ⟨e, hc⟩; exact Except.noConfusion hc
          · intro hc
            rcases hc with hc | hc | hc | hc
            · exact absurd (Or.inl hc) h1
            · exact absurd (Or.inr hc) h1
            · exact absurd hc h2
            · exact absurd hc h3

/-- A random stream that enumerates every cell of a 5-by-5 grid:
attempt k draws row k / 5 and column k % 5. -/
def enumStream : Nat → Nat := fun i => if i % 2 = 0 then i / 2 / 5 else i / 2 % 5

def envEnum : RandomEnv := ⟨fun _ => enumStream, 0⟩

/-- Extract the grid from a successful construction. -/
def builtGrid (res : Except ValidationError (Option (Grid × Nat))) : Grid :=
  match res with
  | .ok (some (g, _)) => g
  | _ => default

/-- Claim C10: construction fails, with an error naming the violated
constraint, exactly when height < 5, width < 5, mineCount < 1 or
mineCount > height * width, the check running before any grid state is
built; new(4,5,1) and new(5,5,26) fail while new(5,5,25) succeeds as
the degenerate all-mine grid. -/
theorem validation_characterization :
    (∀ (env : RandomEnv) (h w m : Int) (sa : Option Int) (fuel : Nat),
      ((∃ e, mkGrid env h w m sa fuel = .error e) ↔
        (h < 5 ∨ w < 5 ∨ m < 1 ∨ m > h * w)) ∧
      (mkGrid env h w m sa fuel = .error .tooSmall ↔ (h < 5 ∨ w < 5)) ∧
      (mkGrid env h w m sa fuel = .error .notEnoughMines ↔
        (¬(h < 5 ∨ w < 5) ∧ m < 1)) ∧
      (mkGrid env h w m sa fuel = .error .tooManyMines ↔
        (¬(h < 5 ∨ w < 5) ∧ ¬(m < 1) ∧ m > h * w)) ∧
      (mkGrid env 4 5 1 sa fuel = .error .tooSmall) ∧
      (mkGrid env 5 5 26 sa fuel = .error .tooManyMines)) ∧
    (∃ g idx, mkGrid envEnum 5 5 25 none 1 = .ok (some (g, idx)) ∧
      countMines g.tile_grid = 25) := by
  constructor
  · intro env h w m sa fuel
    obtain ⟨c1, c2, c3, c4⟩ := check_valid_cases h w m
    refine ⟨?_, ?_, ?_, ?_, ?_, ?_⟩
    · constructor
      · intro ⟨e, he⟩
        exact c4.mp ⟨e, (mkGrid_error_iff env h w m sa fuel e).mp he⟩
      · intro hb
        obtain ⟨e, he⟩ := c4.mpr hb
        exact ⟨e, (mkGrid_error_iff env h w m sa fuel e).mpr he⟩
    · rw [mkGrid_error_iff]; exact c1
    · rw [mkGrid_error_iff]; exact c2
    · rw [mkGrid_error_iff]; exact c3
    · rw [mkGrid_error_iff]
      exact (check_valid_cases 4 5 1).1.mpr (Or.inl (by omega))
    · rw [mkGrid_error_iff]
      exact (check_valid_cases 5 5 26).2.2.1.mpr (by omega)
  · exact ⟨builtGrid (mkGrid envEnum 5 5 25 none 1), 50, by rfl, by rfl⟩

/-! Seed recording (grid.py line 31-32): self.seed records the passed
seed or a fresh urandom value, but random.seed is called with the
PASSED PARAMETER, which is None when the seed was omitted. -/

/-- An environment in which seeding the random module with None yields
a different draw stream than seeding it with the recorded value 42:
any real environment behaves this way with overwhelming probability,
since random.seed(None) draws operating-system entropy unrelated to
the urandom bytes recorded as self.seed. -/
def envMismatch : RandomEnv :=
  ⟨fun sa _ => match sa with | none => 0 | some _ => 1, 42⟩

/-- Claim C2 (code bug evidence): a grid built without an explicit
seed records seed 42 (the urandom draw), places its mine at (0, 0),
yet rebuilding with the recorded seed 42 places the mine at (1, 1):
the recorded seed does not drive placement because line 32 of grid.py
seeds the random module with the None parameter instead of self.seed. -/
theorem seed_recording_mismatch :
    (builtGrid (mkGrid envMismatch 5 5 1 none 1)).seed = 42 ∧
    mkGrid envMismatch 5 5 1 none 1 =
      .ok (some (builtGrid (mkGrid envMismatch 5 5 1 none 1), 2)) ∧
    mkGrid envMismatch 5 5 1 (some 42) 1 =
      .ok (some (builtGrid (mkGrid envMismatch 5 5 1 (some 42) 1), 2)) ∧
    mineAt (builtGrid (mkGrid envMismatch 5 5 1 none 1)) 0 0 = true ∧
    mineAt (builtGrid (mkGrid envMismatch 5 5 1 (some 42) 1)) 0 0 = false ∧
    mineAt (builtGrid (mkGrid envMismatch 5 5 1 (some 42) 1)) 1 1 = true ∧
    (builtGrid (mkGrid envMismatch 5 5 1 none 1)).tile_grid.map
        (List.map fun t => t.mine) ≠
      (builtGrid (mkGrid envMismatch 5 5 1 (some 42) 1)).tile_grid.map
        (List.map fun t => t.mine) :=
  ⟨by rfl, by rfl, by rfl, by rfl, by rfl, by rfl, by decide⟩

/-! Operation sequences for the mine-never-revealed invariant. -/

/-- The grid-level operations reachable from the console. -/
inductive Op where
  | openTile (row col : Int)
  | placeFlag (row col : Int)
  | removeFlag (row col : Int)
  | checkWin
  | restart (fuel : Nat)

/-- One action against the grid. A KeyError raised on an out-of-range
coordinate propagates before any mutation, leaving the grid unchanged;
checkWin mutates nothing; restart reruns _set_up_grid with the global
random stream continuing from its current draw index. -/
def applyOp (s : Nat → Nat) (st : Grid × Nat) : Op → Option (Grid × Nat)
  | .openTile r c =>
    match st.1.open_tile r c with
    | none => some st
    | some (g', _) => some (g', st.2)
  | .placeFlag r c => some ((st.1.place_flag r c).getD st.1, st.2)
  | .removeFlag r c => some ((st.1.remove_flag r c).getD st.1, st.2)
  | .checkWin => some st
  | .restart fuel => st.1.restart_grid s fuel st.2

def applyOps (s : Nat → Nat) : Grid × Nat → List Op → Option (Grid × Nat)
  | st, [] => some st
  | st, op :: ops =>
    match applyOp s st op with
    | none => none
    | some st' => applyOps s st' ops

/-- Mine tiles are unrevealed and carry stored count 0. -/
def MineInv (g : Grid) : Prop :=
  ∀ r c t, g.getTile? r c = some t → t.mine = true →
    t.revealed = false ∧ g.getCount? r c = some 0

theorem mineInv_mk (g : Grid)
    (hfresh : ∀ r c t, lookup2 g.tile_grid r c = some t →
      t.revealed = false ∧ t.flagged = false)
    (hcg : ∀ r c, lookup2 g.mine_count_grid r c =
      (lookup2 g.tile_grid r c).map fun t =>
        if t.mine then 0 else find_surrounding_mine_count g.tile_grid r c) :
    MineInv g := by
  intro r c t hl hm
  refine ⟨(hfresh r c t hl).1, ?_⟩
  unfold Grid.getCount?
  rw [hcg r c]
  rw [show lookup2 g.tile_grid r c = some t from hl]
  simp [hm]

theorem mineInv_open (g : Grid) (row col : Int) (g' : Grid) (out : List Pos)
    (h : g.open_tile row col = some (g', out)) (hinv : MineInv g) :
    MineInv g' := by
  rcases open_tile_spec g row col g' out h with
    ⟨hG, _, _⟩ | ⟨t, tc, tnc, ht, htm, _, _, _, _, _, _, hcg', hfi⟩
  · subst hG; exact hinv
  · intro r c t' hl' hm'
    have hl'' : lookup2 g'.tile_grid r c = some t' := hl'
    have hbase : ∃ t0, lookup2 g.tile_grid r c = some t0 := by
      have hs := hfi.dom r c
      rw [hl''] at hs
      cases hb : lookup2 g.tile_grid r c with
      | none => rw [hb] at hs; simp at hs
      | some t0 => exact ⟨t0, rfl⟩
    obtain ⟨t0, hb⟩ := hbase
    have hsk := hfi.skeleton r c t0 t' hb hl''
    have hbm : t0.mine = true := by rw [← hsk.1]; exact hm'
    obtain ⟨hbrev, hbcnt⟩ := hinv r c t0 hb hbm
    constructor
    · cases hrev' : t'.revealed with
      | false => rfl
      | true =>
        rcases hfi.guard r c t0 t' hb hl'' hrev' with
          h1 | h2 | ⟨_, ⟨h3, _⟩ | ⟨n, hn, hpos⟩⟩
        · rw [h1] at hbrev; exact Bool.noConfusion hbrev
        · have hr : r = row := congrArg Prod.fst h2
          have hc : c = col := congrArg Prod.snd h2
          subst hr; subst hc
          have hbt : lookup2 g.tile_grid r c = some t := ht
          rw [hbt] at hb
          injection hb with hb
          rw [← hb] at hbm
          rw [htm] at hbm
          exact Bool.noConfusion hbm
        · rw [h3] at hbm; exact Bool.noConfusion hbm
        · rw [hbcnt] at hn
          injection hn with hn
          omega
    · unfold Grid.getCount?
      rw [hcg']
      exact hbcnt

theorem mineInv_modify_flag (g : Grid) (f : Tile → Tile)
    (hf : ∀ t, (f t).mine = t.mine ∧ (f t).revealed = t.revealed)
    (r c : Int) (hinv : MineInv g) :
    MineInv { g with tile_grid := modify2 g.tile_grid r c f } := by
  intro r' c' t' hl' hm'
  have hl'' : lookup2 (modify2 g.tile_grid r c f) r' c' = some t' := hl'
  obtain ⟨t, hl, hcase⟩ := lookup2_modify2_rev hl''
  have hmine : t'.mine = t.mine := by
    rcases hcase with hcase | hcase
    · rw [hcase]; exact (hf t).1
    · rw [hcase]
  have hrev : t'.revealed = t.revealed := by
    rcases hcase with hcase | hcase
    · rw [hcase]; exact (hf t).2
    · rw [hcase]
  have hm : t.mine = true := by rw [← hmine]; exact hm'
  obtain ⟨h1, h2⟩ := hinv r' c' t hl hm
  exact ⟨by rw [hrev]; exact h1, h2⟩

theorem mineInv_place_flag (g : Grid) (r c : Int) (hinv : MineInv g) :
    MineInv ((g.place_flag r c).getD g) := by
  unfold Grid.place_flag
  cases hl : g.getTile? r c with
  | none => exact hinv
  | some t =>
    exact mineInv_modify_flag g Tile.place_flag (fun t => ⟨rfl, rfl⟩) r c hinv

theorem mineInv_remove_flag (g : Grid) (r c : Int) (hinv : MineInv g) :
    MineInv ((g.remove_flag r c).getD g) := by
  unfold Grid.remove_flag
  cases hl : g.getTile? r c with
  | none => exact hinv
  | some t =>
    exact mineInv_modify_flag g Tile.remove_flag (fun t => ⟨rfl, rfl⟩) r c hinv

theorem mineInv_restart (g : Grid) (s : Nat → Nat) (fuel idx : Nat)
    (g' : Grid) (idx' : Nat) (h : g.restart_grid s fuel idx = some (g', idx')) :
    MineInv g' := by
  unfold Grid.restart_grid at h
  cases hs : set_up_grid g.grid_height g.grid_width g.mine_count s fuel idx with
  | none => rw [hs] at h; exact Option.noConfusion h
  | some p =>
    rw [hs] at h
    obtain ⟨⟨tg, cg⟩, i⟩ := p
    injection h with h
    rw [Prod.mk.injEq] at h
    obtain ⟨hG, _⟩ := h
    obtain ⟨_, _, _, hfresh, hcg⟩ :=
      set_up_grid_spec g.grid_height g.grid_width g.mine_count s fuel idx tg cg i hs
    rw [← hG]
    exact mineInv_mk _ hfresh hcg

theorem mineInv_applyOp (s : Nat → Nat) (st st' : Grid × Nat) (op : Op)
    (h : applyOp s st op = some st') (hinv : MineInv st.1) :
    MineInv st'.1 := by
  cases op with
  | openTile r c =>
    unfold applyOp at h
    dsimp only at h
    cases ho : st.1.open_tile r c with
    | none =>
      rw [ho] at h
      injection h with h
      rw [← h]
      exact hinv
    | some p =>
      rw [ho] at h
      obtain ⟨g', outp⟩ := p
      injection h with h
      rw [← h]
      exact mineInv_open st.1 r c g' outp ho hinv
  | placeFlag r c =>
    unfold applyOp at h
    dsimp only at h
    injection h with h
    rw [← h]
    exact mineInv_place_flag st.1 r c hinv
  | removeFlag r c =>
    unfold applyOp at h
    dsimp only at h
    injection h with h
    rw [← h]
    exact mineInv_remove_flag st.1 r c hinv
  | checkWin =>
    unfold applyOp at h
    dsimp only at h
    injection h with h
    rw [← h]
    exact hinv
  | restart fuel =>
    unfold applyOp at h
    dsimp only at h
    obtain ⟨g', i'⟩ := st'
    exact mineInv_restart st.1 s fuel st.2 g' i' h

theorem mineInv_applyOps (s : Nat → Nat) :
    ∀ (ops : List Op) (st st' : Grid × Nat),
    applyOps s st ops = some st' → MineInv st.1 → MineInv st'.1 := by
  intro ops
  induction ops with
  | nil =>
    intro st st' h hinv
    injection h with h
    rw [← h]
    exact hinv
  | cons op ops ih =>
    intro st st' h hinv
    unfold applyOps at h
    cases ha : applyOp s st op with
    | none => rw [ha] at h; exact Option.noConfusion h
    | some st1 =>
      rw [ha] at h
      exact ih st1 st' h (mineInv_applyOp s st st1 op ha hinv)

/-- Claim C7: starting from a freshly constructed grid, after any
sequence of openTile, placeFlag, removeFlag, checkWin and restart
operations, every mine tile is still unrevealed. -/
theorem mines_never_revealed (env : RandomEnv) (h w m : Int) (sa : Option Int)
    (fuel : Nat) (g0 : Grid) (i0 : Nat) (ops : List Op) (g : Grid) (i : Nat)
    (hmk : mkGrid env h w m sa fuel = .ok (some (g0, i0)))
    (hops : applyOps (env.stream sa) (g0, i0) ops = some (g, i)) :
    ∀ r c t, g.getTile? r c = some t → t.mine = true → t.revealed = false := by
  obtain ⟨_, _, _, _, _, _, hfresh, hcg⟩ := mkGrid_spec env h w m sa fuel g0 i0 hmk
  have hinv0 : MineInv g0 := mineInv_mk g0 hfresh hcg
  have hinv := mineInv_applyOps (env.stream sa) ops (g0, i0) (g, i) hops hinv0
  intro r c t hl hm
  exact (hinv r c t hl hm).1

/-! Concrete grids for counterexamples and witnesses. -/

def envZero : RandomEnv := ⟨fun _ _ => 0, 7⟩

def envOne : RandomEnv := ⟨fun _ _ => 1, 7⟩

/-- 5-by-5 grid with a single mine at (0, 0). -/
def gMineCorner : Grid := builtGrid (mkGrid envZero 5 5 1 none 1)

/-- 5-by-5 grid with a single mine at (1, 1), so (0, 0) is an
indicator tile with stored count 1. -/
def gMineCenter : Grid := builtGrid (mkGrid envOne 5 5 1 none 1)

/-- Extract the grid from a successful open_tile call. -/
def openedGrid (res : Option (Grid × List Pos)) : Grid :=
  match res with
  | some (g, _) => g
  | none => default

def gIndicatorClick : Grid := openedGrid (gMineCenter.open_tile 0 0)

/-- Claim C1 counterexample: on the grid with its single mine at
(1, 1), the clicked tile (0, 0) is an unrevealed indicator (count 1);
openTile(0, 0) marks it revealed during the call and then expands it,
revealing its neighbors (0, 1) and (1, 0), while no empty tile is
revealed at all by the call (every revealed tile carries a positive
stored count) - so those reveals were not reached through any empty
tile. -/
theorem indicator_clicked_is_expanded :
    gMineCenter.getTile? 0 0 =
      some { mine := false, revealed := false, flagged := false } ∧
    gMineCenter.getCount? 0 0 = some 1 ∧
    gMineCenter.open_tile 0 0 =
      some (gIndicatorClick, [(0, 0), (0, 1), (1, 0)]) ∧
    gIndicatorClick.getTile? 0 0 =
      some { mine := false, revealed := true, flagged := false } ∧
    gMineCenter.getTile? 0 1 =
      some { mine := false, revealed := false, flagged := false } ∧
    gIndicatorClick.getTile? 0 1 =
      some { mine := false, revealed := true, flagged := false } ∧
    adjacentPos (0, 0) (0, 1) ∧
    (∀ r c t, gIndicatorClick.getTile? r c = some t → t.revealed = true →
      0 < (gIndicatorClick.getCount? r c).getD 0) := by
  refine ⟨by rfl, by rfl, by rfl, by rfl, by rfl, by rfl, by decide, ?_⟩
  have hd : Dims gIndicatorClick.tile_grid 5 5 := by decide
  exact (lookup2_forall_iff hd fun r c t => t.revealed = true →
    0 < (gIndicatorClick.getCount? r c).getD 0).mpr (by decide)

/-- (0, 1) of gMineCorner is a safe indicator tile; flag it. -/
def gFlaggedNbr : Grid := (gMineCorner.place_flag 0 1).getD default

def resFlaggedNbr : Option (Grid × List Pos) := gFlaggedNbr.open_tile 4 4

def gFlaggedNbrOpened : Grid := openedGrid resFlaggedNbr

def outFlaggedNbr : List Pos :=
  match resFlaggedNbr with
  | some (_, l) => l
  | none => []

/-- gMineCorner with the safe empty tile (4, 4) flagged. -/
def gFlaggedClick : Grid := (gMineCorner.place_flag 4 4).getD default

def gFlaggedClickOpened : Grid := openedGrid (gFlaggedClick.open_tile 4 4)

/-- Claim C3 counterexample: tile (4, 4) is flagged, unrevealed and
mine-free; openTile(4, 4) reveals it anyway, because the short-circuit
tests only mine and revealed status of the clicked tile, never its
flag. -/
theorem open_tile_reveals_flagged_clicked :
    gFlaggedClick.getTile? 4 4 =
      some { mine := false, revealed := false, flagged := true } ∧
    (gFlaggedClick.open_tile 4 4).isSome = true ∧
    gFlaggedClickOpened.getTile? 4 4 =
      some { mine := false, revealed := true, flagged := true } := by
  refine ⟨by rfl, by rfl, by rfl⟩

def gAllOpened : Grid := openedGrid (gMineCorner.open_tile 4 4)

/-- Reachable end state: open (4, 4) floods every safe tile, then flag
the mine (0, 0) and also flag the already revealed safe tile (4, 4),
which place_flag permits with only a printed warning. -/
def gWin : Grid :=
  ((gAllOpened.place_flag 0 0).bind fun g => g.place_flag 4 4).getD default

/-- Claim C4 counterexample: in the reachable state gWin the safe tile
(4, 4) is flagged, yet check_win returns true, because a flagged safe
tile that is also revealed satisfies the revealed-and-safe disjunct. -/
theorem check_win_true_with_flagged_safe :
    gWin.getTile? 4 4 =
      some { mine := false, revealed := true, flagged := true } ∧
    gWin.getTile? 0 0 =
      some { mine := true, revealed := false, flagged := true } ∧
    gWin.check_win = true := by
  refine ⟨by rfl, by rfl, by rfl⟩

/-! Witnesses. -/

theorem open_tile_short_circuit_witness :
    gMineCorner.getTile? 0 0 =
      some { mine := true, revealed := false, flagged := false } ∧
    gMineCorner.open_tile 0 0 = some (gMineCorner, [(0, 0)]) :=
  ⟨by rfl,
    (open_tile_short_circuit gMineCorner 0 0
      { mine := true, revealed := false, flagged := false } (by rfl)).1
      (Or.inl rfl)⟩

theorem open_tile_flag_protection_witness :
    gFlaggedNbr.open_tile 4 4 = some (gFlaggedNbrOpened, outFlaggedNbr) ∧
    gFlaggedNbr.getTile? 0 1 =
      some { mine := false, revealed := false, flagged := true } ∧
    (∀ r c t0 t, gFlaggedNbr.getTile? r c = some t0 →
      gFlaggedNbrOpened.getTile? r c = some t → t.flagged = t0.flagged) ∧
    (∀ r c t0 t, gFlaggedNbr.getTile? r c = some t0 →
      gFlaggedNbrOpened.getTile? r c = some t →
      ¬(r = 4 ∧ c = 4) → t0.flagged = true → t0.revealed = false →
      t.revealed = false) :=
  ⟨by rfl, by rfl,
    (open_tile_flag_protection gFlaggedNbr 4 4 gFlaggedNbrOpened outFlaggedNbr
      (by rfl)).1,
    (open_tile_flag_protection gFlaggedNbr 4 4 gFlaggedNbrOpened outFlaggedNbr
      (by rfl)).2⟩

theorem open_tile_expansion_sources_witness :
    gMineCenter.open_tile 0 0 =
      some (gIndicatorClick, [(0, 0), (0, 1), (1, 0)]) ∧
    (∀ r c t0 t, gMineCenter.getTile? r c = some t0 →
      gIndicatorClick.getTile? r c = some t →
      t0.revealed = false → t.revealed = true →
      (r, c) = ((0, 0) : Pos) ∨
      ∃ p, adjacentPos p (r, c) ∧
        (p = ((0, 0) : Pos) ∨
          (∃ tp0, gMineCenter.getTile? p.1 p.2 = some tp0 ∧ tp0.mine = false ∧
            gMineCenter.getCount? p.1 p.2 = some 0 ∧
            ∃ tp, gIndicatorClick.getTile? p.1 p.2 = some tp ∧
              tp.revealed = true))) :=
  ⟨by rfl,
    open_tile_expansion_sources gMineCenter 0 0 gIndicatorClick
      [(0, 0), (0, 1), (1, 0)] (by rfl)⟩

theorem check_win_false_of_flagged_unrevealed_safe_witness :
    gFlaggedClick.getTile? 4 4 =
      some { mine := false, revealed := false, flagged := true } ∧
    gFlaggedClick.check_win = false :=
  ⟨by rfl,
    check_win_false_of_flagged_unrevealed_safe gFlaggedClick 4 4
      { mine := false, revealed := false, flagged := true }
      (by rfl) rfl rfl rfl⟩

theorem check_win_characterization_witness :
    (gMineCorner.check_win = true ↔
      ∀ r c t, gMineCorner.getTile? r c = some t →
        ((t.flagged = true ∧ t.mine = true) ∨
          (t.revealed = true ∧ t.mine = false))) ∧
    gMineCorner.check_win = false :=
  ⟨(check_win_characterization gMineCorner).1,
    (check_win_characterization gMineCorner).2.2 0 1
      { mine := false, revealed := false, flagged := false } (by rfl) rfl rfl⟩

def opsRun : List Op :=
  [.placeFlag 0 0, .openTile 4 4, .checkWin, .restart 1, .openTile 2 2,
    .removeFlag 0 0, .openTile 9 9]

def resRun : Option (Grid × Nat) :=
  applyOps (envZero.stream none) (gMineCorner, 2) opsRun

def gRunFinal : Grid :=
  match resRun with
  | some (g, _) => g
  | none => default

def iRunFinal : Nat :=
  match resRun with
  | some (_, i) => i
  | none => 0

theorem mines_never_revealed_witness :
    mkGrid envZero 5 5 1 none 1 = .ok (some (gMineCorner, 2)) ∧
    applyOps (envZero.stream none) (gMineCorner, 2) opsRun =
      some (gRunFinal, iRunFinal) ∧
    (∀ r c t, gRunFinal.getTile? r c = some t → t.mine = true →
      t.revealed = false) :=
  ⟨by rfl, by rfl,
    mines_never_revealed envZero 5 5 1 none 1 gMineCorner 2 opsRun
      gRunFinal iRunFinal (by rfl) (by rfl)⟩

theorem mine_counts_correct_witness :
    mkGrid envZero 5 5 1 none 1 = .ok (some (gMineCorner, 2)) ∧
    (∀ r c t, gMineCorner.getTile? r c = some t → t.mine = false →
      gMineCorner.getCount? r c =
        some (specSurroundingMineCount gMineCorner r c)) :=
  ⟨by rfl, mine_counts_correct envZero 5 5 1 none 1 gMineCorner 2 (by rfl)⟩

theorem construction_counts_witness :
    mkGrid envZero 5 5 1 none 1 = .ok (some (gMineCorner, 2)) ∧
    (countMines gMineCorner.tile_grid = (1 : Int).toNat ∧
      gMineCorner.mine_count = (1 : Int).toNat ∧
      (∀ r c, (gMineCorner.getTile? r c).isSome ↔
        (0 ≤ r ∧ r < (gMineCorner.grid_height : Int) ∧ 0 ≤ c ∧
          c < (gMineCorner.grid_width : Int))) ∧
      (∀ r c, (gMineCorner.getCount? r c).isSome ↔
        (0 ≤ r ∧ r < (gMineCorner.grid_height : Int) ∧ 0 ≤ c ∧
          c < (gMineCorner.grid_width : Int)))) :=
  ⟨by rfl, construction_counts envZero 5 5 1 none 1 gMineCorner 2 (by rfl)⟩

end Minesweeper
